import Mathlib

/-!
Verification of cprompt's element-resolution engine.

This file shallowly embeds the C sources of the cprompt repository
(`src/user_config.h`, which contains the prompt catalog followed by the
current revision of the main translation unit; `src/unnamed/part_000` is an
older revision of the same translation unit).  Machine state that the C
manipulates implicitly is made explicit:

* the process-wide `errno` cell is threaded through every resolver as part
  of a state record `St`;
* heap allocation is modelled by a ledger: `malloc` draws a fresh block id
  from a counter and adds it to the live set, `free` removes the id from the
  live set and appends it to a log of freed ids.  A C string value `CStr` is
  either `static` (process-lifetime storage, never freed) or `heap`
  (a block id plus the characters it holds);
* every fallible OS call is driven by an oracle record `Oracle` giving the
  call's outcome and its effect on `errno` (`none` = leaves errno unchanged);
* a run that reaches C undefined behavior (the one reachable case: the
  tilde-shift loop of `get_pwd_tilde` when the home string is empty) is
  modelled as `none`.
-/

namespace Cprompt

/-- PATH_MAX of the target platform (macOS/libproc, per the includes): 1024. -/
def PATH_MAX : Nat := 1024

/-- `#define MAX_STRFTIME_SIZE 50` -/
def MAX_STRFTIME_SIZE : Nat := 50

/-- A C string value: process-lifetime static storage, a heap block
carrying its allocation id and contents, or the NULL pointer.  NULL arises
in the program: at five call sites the caller assigns `malloc_or_error`'s
return value over the fragment text (`ps->str = malloc_or_error(ps, ...)`),
so an allocation failure stores NULL over the `!MALLOC!` token the helper
just wrote. -/
inductive CStr where
  | static (s : String)
  | heap (id : Nat) (s : String)
  | null
deriving DecidableEq, Repr

/-- The characters a `char*` points at.  Dereferencing NULL is undefined;
`text` is consulted only where the value is known non-NULL (the one place
the program reads a possibly-NULL fragment, `printf` in `main`, is modelled
separately as undefined behavior in `print_loop`), so the `.null` arm's
value is arbitrary. -/
def CStr.text : CStr → String
  | .static s => s
  | .heap _ s => s
  | .null => ""

/-- Explicit machine state: the `errno` cell and the allocation ledger.
`next` is the next fresh block id, `live` the currently allocated blocks,
`freedLog` every id ever passed to `free`, in order. -/
structure St where
  errno : Int
  next : Nat
  live : List Nat
  freedLog : List Nat
deriving DecidableEq, Repr

/-- `malloc`: when the oracle says the call succeeds, returns a fresh block
id and marks it live; otherwise returns `none` (C NULL) and leaves the state
unchanged. -/
def mallocS (ok : Bool) (s : St) : Option Nat × St :=
  if ok then (some s.next, { s with next := s.next + 1, live := s.next :: s.live })
  else (none, s)

/-- `free`: removes the block from the live set and records the call. -/
def freeS (id : Nat) (s : St) : St :=
  { s with live := s.live.erase id, freedLog := s.freedLog ++ [id] }

/-- Effect of an OS call on `errno`: `none` leaves it, `some e` sets it. -/
def setErrno (eff : Option Int) (s : St) : St :=
  { s with errno := eff.getD s.errno }

/-- `struct prompt_string { char* str; bool needs_free; }` -/
structure PromptString where
  str : CStr
  needs_free : Bool
deriving DecidableEq, Repr

/-- The observable part of a fragment: its text and its ownership flag
(heap block ids are run-internal names, like pointer values in C). -/
def PromptString.view (ps : PromptString) : String × Bool :=
  (ps.str.text, ps.needs_free)

/-- Contents written by `strlcpy(dst, src, size)` for `size ≥ 1`: the first
`size - 1` characters of `src`, NUL-terminated. -/
def strlcpyM (src : String) (size : Nat) : String :=
  String.mk (src.data.take (size - 1))

/-- Contents of `dst` after `strlcat(dst, src, size)`: if `size ≤ strlen(dst)`
nothing is appended; otherwise at most `size - strlen(dst) - 1` characters of
`src` are appended (the result stays NUL-terminated within `size`). -/
def strlcatM (dst src : String) (size : Nat) : String :=
  if size ≤ dst.length then dst
  else String.mk (dst.data ++ src.data.take (size - dst.length - 1))

/-- Per-resolution OS oracle: the outcome of every fallible call a single
element resolution can make, plus each call's effect on `errno`.  Separate
resolutions of distinct elements are driven by separate oracles. -/
structure Oracle where
  /-- whether the platform has `strerrorname_np` (`HAVE_STRERRORNAME_NP`) -/
  hasStrerror : Bool
  /-- `strerrorname_np`: canonical short name of an errno value -/
  errName : Int → String
  /-- outcome of the `malloc` inside `format_error` -/
  feMallocOk : Bool
  timeOk : Bool
  timeErrno : Option Int
  /-- outcome of the `malloc` in `get_formatted_time` -/
  tmMallocOk : Bool
  /-- the text `strftime` would produce for a format pattern -/
  strftimeOut : String → String
  hostSysconfOk : Bool
  hostSysconfErrno : Option Int
  hostMallocOk : Bool
  hostnameOk : Bool
  hostnameErrno : Option Int
  hostname : String
  isattyOk : Bool
  isattyErrno : Option Int
  ttynameOk : Bool
  ttynameErrno : Option Int
  ttyname : String
  ttyMallocOk : Bool
  ttyBasenameOk : Bool
  ttyBasenameErrno : Option Int
  /-- the text `basename_r` writes for a given path -/
  basenameOf : String → String
  /-- whether the build is the `__APPLE__` branch of `get_parent_name` -/
  apple : Bool
  parentMallocOk : Bool
  procOk : Bool
  procErrno : Option Int
  procPath : String
  pwSysconfOk : Bool
  pwSysconfErrno : Option Int
  userMallocOk : Bool
  getpwStatus : Int
  getpwErrno : Option Int
  getpwFound : Bool
  pwName : String
  userStrndupOk : Bool
  homeEnv : Option String
  hdSysconfOk : Bool
  hdSysconfErrno : Option Int
  hdMallocOk : Bool
  hdGetpwStatus : Int
  hdGetpwErrno : Option Int
  hdGetpwFound : Bool
  pwDir : String
  hdStrndupOk : Bool
  getcwdOk : Bool
  getcwdErrno : Option Int
  cwd : String
  pwdMallocOk : Bool
  pwdBasenameOk : Bool
  pwdBasenameErrno : Option Int
  euid : Nat

/-- `format_error` (user_config.h lines 145-166): with `strerrorname_np`
available, builds `"!" + name + "!"` into a buffer of
`2 + strnlen(name, 20)` bytes via `strlcpy`/`strlcat` and returns it owned;
on allocation failure, or without the facility, returns the caller's default
token borrowed. -/
def format_error (err_str : String) (err : Int) (o : Oracle) (s : St) :
    PromptString × St :=
  if o.hasStrerror then
    let name := o.errName err
    let length := 2 + min name.length 20
    match mallocS o.feMallocOk s with
    | (none, s1) => (⟨.static err_str, false⟩, s1)
    | (some id, s1) =>
        let buf := strlcpyM "!" length
        let buf := strlcatM buf name length
        let buf := strlcatM buf "!" length
        (⟨.heap id buf, true⟩, s1)
  else (⟨.static err_str, false⟩, s)

/-- `get_formatted_time` (user_config.h lines 174-203): on clock failure the
error helper with default `!TIME!`; on buffer-allocation failure the code
does `ps->str = malloc_or_error(ps, ...)`, which stores the helper's NULL
return over the `!MALLOC!` token the helper wrote, leaving a NULL fragment
(flag false); when `strftime` returns 0 (empty output or output would not
fit in `MAX_STRFTIME_SIZE`) the buffer is freed and the borrowed
`!STRFTIME!` constant is returned; otherwise the owned formatted buffer. -/
def get_formatted_time (fmt : String) (o : Oracle) (s : St) : PromptString × St :=
  if !o.timeOk then
    let s1 := setErrno o.timeErrno s
    format_error "!TIME!" s1.errno o s1
  else
    match mallocS o.tmMallocOk s with
    | (none, s1) => (⟨.null, false⟩, s1)
    | (some id, s1) =>
        let out := o.strftimeOut fmt
        if out.length = 0 ∨ MAX_STRFTIME_SIZE ≤ out.length then
          (⟨.static "!STRFTIME!", false⟩, freeS id s1)
        else (⟨.heap id out, true⟩, s1)

/-- `get_hostname` (user_config.h lines 212-254): the code saves `errno` on
entry; when `sysconf(_SC_HOST_NAME_MAX)` fails with `errno` unchanged it
returns borrowed `!NOHOSTNAMEMAX!`, otherwise the error helper with
`!SYSCONF!`; an allocation failure leaves a NULL fragment (the
`ps->str = malloc_or_error(...)` assignment stores NULL over the token);
after allocating, a `gethostname` failure frees the buffer and routes
through the helper with `!GETHOSTNAME!`; on success, `to_dot` truncates at
the first dot in place. -/
def get_hostname (toDot : Bool) (o : Oracle) (s : St) : PromptString × St :=
  let errnoTemp := s.errno
  if !o.hostSysconfOk then
    let s1 := setErrno o.hostSysconfErrno s
    if s1.errno = errnoTemp then (⟨.static "!NOHOSTNAMEMAX!", false⟩, s1)
    else format_error "!SYSCONF!" s1.errno o s1
  else
    match mallocS o.hostMallocOk s with
    | (none, s1) => (⟨.null, false⟩, s1)
    | (some id, s1) =>
        if !o.hostnameOk then
          let s2 := setErrno o.hostnameErrno (freeS id s1)
          format_error "!GETHOSTNAME!" s2.errno o s2
        else
          let h := if toDot then String.mk (o.hostname.data.takeWhile (fun c => c ≠ '.'))
                   else o.hostname
          (⟨.heap id h, true⟩, s1)

/-- `get_tty_basename` (user_config.h lines 261-292): `!ISATTY!`-helper when
stdout is not a tty, `!TTYNAME!`-helper when the name cannot be fetched, a
NULL fragment on allocation failure (the `ps->str = malloc_or_error(...)`
assignment stores NULL over the token), `!BASENAMER!`-helper (buffer freed)
when `basename_r` fails, otherwise the owned buffer holding the basename. -/
def get_tty_basename (o : Oracle) (s : St) : PromptString × St :=
  if !o.isattyOk then
    let s1 := setErrno o.isattyErrno s
    format_error "!ISATTY!" s1.errno o s1
  else if !o.ttynameOk then
    let s1 := setErrno o.ttynameErrno s
    format_error "!TTYNAME!" s1.errno o s1
  else
    match mallocS o.ttyMallocOk s with
    | (none, s1) => (⟨.null, false⟩, s1)
    | (some id, s1) =>
        if !o.ttyBasenameOk then
          let s2 := setErrno o.ttyBasenameErrno (freeS id s1)
          format_error "!BASENAMER!" s2.errno o s2
        else (⟨.heap id (o.basenameOf o.ttyname), true⟩, s1)

/-- `get_parent_name` (user_config.h lines 299-327): allocates first (an
allocation failure leaves a NULL fragment, the token being overwritten by
the `ps->str = malloc_or_error(...)` assignment); on the `__APPLE__` branch
`proc_pidpath` failure frees and routes through the helper with
`!PROCPIDPATH!`, success returns the owned path; off the branch the buffer
is freed again and borrowed `!NOPROC!` is returned. -/
def get_parent_name (o : Oracle) (s : St) : PromptString × St :=
  match mallocS o.parentMallocOk s with
  | (none, s1) => (⟨.null, false⟩, s1)
  | (some id, s1) =>
      if o.apple then
        if o.procOk then (⟨.heap id o.procPath, true⟩, s1)
        else
          let s2 := setErrno o.procErrno (freeS id s1)
          format_error "!PROCPIDPATH!" s2.errno o s2
      else (⟨.static "!NOPROC!", false⟩, freeS id s1)

/-- `get_username` (user_config.h lines 334-375): errno-compare heuristic on
`sysconf` failure (`!NOGETPWRSIZEMAX!` vs `!SYSCONF!`-helper); scratch
buffer via `malloc_or_error`; on `getpwuid_r` error the scratch is freed and
the `!GETPWUIDR!`-helper used; with no matching record the scratch is freed
and borrowed `"nobody"` returned; otherwise the name is `strndup`ed (owned
on success, borrowed `!STRNDUP!` on failure) and the scratch freed. -/
def get_username (o : Oracle) (s : St) : PromptString × St :=
  let entry := s.errno
  if !o.pwSysconfOk then
    let s1 := setErrno o.pwSysconfErrno s
    if entry = s1.errno then (⟨.static "!NOGETPWRSIZEMAX!", false⟩, s1)
    else format_error "!SYSCONF!" s1.errno o s1
  else
    match mallocS o.userMallocOk s with
    | (none, s1) => (⟨.static "!MALLOC!", false⟩, s1)
    | (some bufId, s1) =>
        let s2 := setErrno o.getpwErrno s1
        if o.getpwStatus ≠ 0 then
          format_error "!GETPWUIDR!" s2.errno o (freeS bufId s2)
        else if !o.getpwFound then (⟨.static "nobody", false⟩, freeS bufId s2)
        else
          match mallocS o.userStrndupOk s2 with
          | (none, s3) => (⟨.static "!STRNDUP!", false⟩, freeS bufId s3)
          | (some nid, s3) =>
              (⟨.heap nid (String.mk (o.pwName.data.take (PATH_MAX + 1))), true⟩,
               freeS bufId s3)

/-- `get_home_dir` (user_config.h lines 383-426): returns the home string
plus ownership encoded in an `enum home_dir_ret` value (`err_free - 2`
arithmetic included).  Faithful to the C, the `pwbuf` scratch block
allocated before `getpwuid_r` is never freed on any path. -/
def get_home_dir (o : Oracle) (s : St) : (CStr × Int) × St :=
  match o.homeEnv with
  | some h => ((.static h, 0), s)
  | none =>
    let entry := s.errno
    if !o.hdSysconfOk then
      let s1 := setErrno o.hdSysconfErrno s
      if entry = s1.errno then ((.static "!NOGETPWRSIZEMAX!", 0), s1)
      else
        let r := format_error "!SYSCONF!" s1.errno o s1
        ((r.1.str, (if r.1.needs_free then 1 else 0) - 2), r.2)
    else
      match mallocS o.hdMallocOk s with
      | (none, s1) => ((.static "!MALLOC!", -2), s1)
      | (some _pwbufId, s1) =>
          let s2 := setErrno o.hdGetpwErrno s1
          if o.hdGetpwStatus ≠ 0 then
            let r := format_error "!GETPWUIDR!" s2.errno o s2
            ((r.1.str, (if r.1.needs_free then 1 else 0) - 2), r.2)
          else if !o.hdGetpwFound then ((.static "!USERNOTFOUND!", 0), s2)
          else
            match mallocS o.hdStrndupOk s2 with
            | (none, s3) => ((.static "!STRNDUP!", -2), s3)
            | (some hid, s3) =>
                ((.heap hid (String.mk (o.pwDir.data.take (PATH_MAX + 1))), 1), s3)

/-- Index of the first occurrence of `needle` in `hay`, as found by
`strnstr(hay, needle, PATH_MAX)` (the code only compares the result against
the start of the buffer; `getcwd` bounds `hay` below `PATH_MAX`, so the
length cap never cuts a relevant occurrence). -/
def findSub (hay needle : String) : Option Nat :=
  (List.range (hay.length + 1)).find? (fun i => needle.data.isPrefixOf (hay.data.drop i))

/-- The in-place shift loop of `get_pwd_tilde`:
`for (match = pwd + 1; *(match + len); match++) *match = *(match + len);`
writing each cell at index `i` from the cell at index `i + len` and stopping
at the terminator.  Since `len ≥ 0`, the read position never precedes the
write position, so every read sees the buffer's original contents: the loop
copies the original suffix starting at `i + len` down to position `i`. -/
def tildeLoop (pwd : List Char) (len i : Nat) : List Char :=
  match h : pwd.drop (i + len) with
  | [] => []
  | c :: _ => c :: tildeLoop pwd len (i + 1)
termination_by pwd.length - i
decreasing_by
  have hlt : i + len < pwd.length := by
    by_contra hle
    rw [List.drop_eq_nil_of_le (by omega)] at h
    simp at h
  omega

/-- `get_pwd_tilde` (user_config.h lines 434-473): `!GETCWD!`-helper on
`getcwd` failure; a negative `get_home_dir` status is returned directly with
`needs_free = status + 2`; when the cwd begins with the home string the
prefix is shifted away in place and replaced by `~`; the home value is freed
iff `HOME_DIR_ALLOC`; the path is copied into a fresh buffer (an allocation
failure leaves a NULL fragment, the `ps->str = malloc_or_error(...)`
assignment storing NULL over the token; and note the dangling `else` of
`if (base && !basename_r(pwd, ps->str)) {...} else strlcpy(ps->str, pwd,
PATH_MAX);` — when `basename_r` succeeds, the `else` branch runs and the
`strlcpy` overwrites the extracted basename with the full collapsed path,
so the `base` variant's successful result is the same full path).  When the
home string is empty the
C computes `len = strnlen(home) - 1 = -1` and the shift loop reads cells it
has itself just written, running off the end of the buffer: undefined
behavior, modelled as `none`. -/
def get_pwd_tilde (base : Bool) (o : Oracle) (s : St) : Option (PromptString × St) :=
  if !o.getcwdOk then
    let s1 := setErrno o.getcwdErrno s
    some (format_error "!GETCWD!" s1.errno o s1)
  else
    let pwd := o.cwd
    let hd := get_home_dir o s
    let homeStr := hd.1.1
    let status := hd.1.2
    let s1 := hd.2
    if status < 0 then
      some (⟨homeStr, decide (status + 2 ≠ 0)⟩, s1)
    else
      let home := homeStr.text
      let collapsed : Option String :=
        if findSub pwd home = some 0 then
          if min home.length PATH_MAX = 0 then none
          else some (String.mk ('~' :: tildeLoop pwd.data (min home.length PATH_MAX - 1) 1))
        else some pwd
      match collapsed with
      | none => none
      | some pwd1 =>
          let s2 := if status = 1 then
                      match homeStr with
                      | .heap hid _ => freeS hid s1
                      | .static _ => s1
                      | .null => s1
                    else s1
          match mallocS o.pwdMallocOk s2 with
          | (none, s3) => some (⟨.null, false⟩, s3)
          | (some id, s3) =>
              if base && !o.pwdBasenameOk then
                let s4 := setErrno o.pwdBasenameErrno (freeS id s3)
                some (format_error "!BASENAMER!" s4.errno o s4)
              else some (⟨.heap id (strlcpyM pwd1 PATH_MAX), true⟩, s3)

/-- `enum PromptElementType` with each kind's argument attached (the catalog
is fixed at build time; `StringLiteral` and `StrftimeDate` carry their
`arg`). -/
inductive PromptElement where
  | stringLiteral (arg : String)
  | space
  | bell
  | hostnameUpToDot
  | fullHostname
  | ttyBasename
  | shellName
  | weekMonthDay
  | strftimeDate (arg : String)
  | hourMinuteSecond24
  | hourMinuteSecond12
  | timeAmPm
  | hourMinute24
  | username
  | pwdTrunc
  | pwdTruncBasename
  | userPrompt
deriving DecidableEq, Repr

/-- The dispatch switch of `make_exploded_prompt` (user_config.h lines
494-549), for a single element. -/
def resolveElem (e : PromptElement) (o : Oracle) (s : St) : Option (PromptString × St) :=
  match e with
  | .stringLiteral str => some (⟨.static str, false⟩, s)
  | .space => some (⟨.static " ", false⟩, s)
  | .bell => some (⟨.static "\x07", false⟩, s)
  | .weekMonthDay => some (get_formatted_time "%a %b %d" o s)
  | .strftimeDate fmt => some (get_formatted_time fmt o s)
  | .hourMinuteSecond24 => some (get_formatted_time "%H:%M:%S" o s)
  | .hourMinuteSecond12 => some (get_formatted_time "%I:%M:%S" o s)
  | .timeAmPm => some (get_formatted_time "%I:%M %p" o s)
  | .hourMinute24 => some (get_formatted_time "%H:%M" o s)
  | .hostnameUpToDot => some (get_hostname true o s)
  | .fullHostname => some (get_hostname false o s)
  | .ttyBasename => some (get_tty_basename o s)
  | .shellName => some (get_parent_name o s)
  | .username => some (get_username o s)
  | .pwdTrunc => get_pwd_tilde false o s
  | .pwdTruncBasename => get_pwd_tilde true o s
  | .userPrompt => some (⟨.static (if o.euid = 0 then "#" else "$"), false⟩, s)

/-- The resolution loop of `make_exploded_prompt`: one resolution per
element, in catalog order, each driven by its own oracle `os i`. -/
def resolveAll (cat : List PromptElement) (os : Nat → Oracle) (i : Nat) (s : St) :
    Option (List PromptString × St) :=
  match cat with
  | [] => some ([], s)
  | e :: rest =>
      match resolveElem e (os i) s with
      | none => none
      | some (ps, s1) =>
          match resolveAll rest os (i + 1) s1 with
          | none => none
          | some (l, s2) => some (ps :: l, s2)

/-- `make_exploded_prompt` (user_config.h lines 485-553): allocates the
fragment array (`arrOk`; the C does not check this `malloc`, so a failure
would dereference NULL — modelled as `none`) and resolves every catalog
element in order. -/
def make_exploded_prompt (cat : List PromptElement) (os : Nat → Oracle)
    (arrOk : Bool) (s : St) : Option (List PromptString × St) :=
  if arrOk then resolveAll cat os 0 s else none

/-- `exploded_prompt_free` (user_config.h lines 561-568): frees
`exploded_prompt[i].str` for exactly the fragments whose `needs_free` flag
is set.  (A set flag on a static string would be an invalid `free`; the
ownership invariant proved below shows the branch is unreachable.) -/
def exploded_prompt_free (frags : List PromptString) (s : St) : St :=
  match frags with
  | [] => s
  | f :: rest =>
      let s1 := if f.needs_free then
                  match f.str with
                  | .heap id _ => freeS id s
                  | .static _ => s
                  | .null => s
                else s
      exploded_prompt_free rest s1

/-- The output loop of `main` (user_config.h lines 575-580): every fragment
printed with `"%s"`, the last with `"%s\n"`.  Passing a NULL fragment (left
by a failed `ps->str = malloc_or_error(ps, ...)` assignment) to
`printf("%s", ...)` is undefined behavior, modelled as `none`. -/
def print_loop (frags : List PromptString) : Option String :=
  match frags with
  | [] => some ""
  | [f] => if f.str = .null then none else some (f.str.text ++ "\n")
  | f :: rest =>
      if f.str = .null then none
      else (print_loop rest).map (fun r => f.str.text ++ r)

/-- `main` (user_config.h lines 570-583): resolve, print, free. -/
def cprompt_main (cat : List PromptElement) (os : Nat → Oracle)
    (arrOk : Bool) (s : St) : Option String :=
  match make_exploded_prompt cat os arrOk s with
  | none => none
  | some (frags, _) => print_loop frags

/-- The heap block ids of the fragments marked owned, in sequence order. -/
def ownedIds (frags : List PromptString) : List Nat :=
  frags.filterMap (fun f =>
    if f.needs_free then
      match f.str with
      | .heap id _ => some id
      | .static _ => none
      | .null => none
    else none)

/-! ## Allocation-ledger invariants -/

/-- Well-formed state: every live block id was drawn from the counter. -/
def St.wf (s : St) : Prop := ∀ id ∈ s.live, id < s.next

/-- How the ledger may evolve across a resolver call: the id counter grows,
every block live afterwards is either an old live block or a fresh one, and
no block that was live before the call is freed by it. -/
structure Evol (s t : St) : Prop where
  mono : s.next ≤ t.next
  live_sub : ∀ id, id ∈ t.live → id ∈ s.live ∨ (s.next ≤ id ∧ id < t.next)
  pres : ∀ id, id ∈ s.live → id ∈ t.live

/-- Correctness of one resolver call: the ledger evolves, an owned fragment
holds a fresh, still-live heap block, a borrowed fragment holds static
storage. -/
structure StepOk (s t : St) (ps : PromptString) : Prop where
  evol : Evol s t
  own : ps.needs_free = true →
    ∃ id str, ps.str = .heap id str ∧ id ∈ t.live ∧ s.next ≤ id ∧ id < t.next
  bor : ps.needs_free = false → (∃ str, ps.str = .static str) ∨ ps.str = .null

theorem Evol.refl (s : St) : Evol s s :=
  ⟨Nat.le_refl _, fun _ h => Or.inl h, fun _ h => h⟩

theorem Evol.trans {s t u : St} (h1 : Evol s t) (h2 : Evol t u) : Evol s u := by
  refine ⟨Nat.le_trans h1.mono h2.mono, ?_, fun id h => h2.pres id (h1.pres id h)⟩
  intro id h
  rcases h2.live_sub id h with h' | h'
  · rcases h1.live_sub id h' with h'' | h''
    · exact Or.inl h''
    · exact Or.inr ⟨h''.1, Nat.lt_of_lt_of_le h''.2 h2.mono⟩
  · exact Or.inr ⟨Nat.le_trans h1.mono h'.1, h'.2⟩

/-- A call that does not shrink the counter and leaves the live set
unchanged evolves the ledger. -/
theorem Evol.of_parts {s t : St} (hm : s.next ≤ t.next) (hl : t.live = s.live) :
    Evol s t := by
  refine ⟨hm, ?_, ?_⟩ <;> intro id h <;> rw [hl] at * <;> first
    | exact Or.inl h
    | exact h

theorem Evol.wf {s t : St} (h : Evol s t) (hs : s.wf) : t.wf := by
  intro id hid
  rcases h.live_sub id hid with h' | h'
  · exact Nat.lt_of_lt_of_le (hs id h') h.mono
  · exact h'.2

/-- Prefixing a ledger evolution onto a correct call. -/
theorem StepOk.pre {s t u : St} {ps : PromptString} (h : Evol s t)
    (h2 : StepOk t u ps) : StepOk s u ps := by
  refine ⟨h.trans h2.evol, ?_, h2.bor⟩
  intro hf
  obtain ⟨id, str, h3, h4, h5, h6⟩ := h2.own hf
  exact ⟨id, str, h3, h4, Nat.le_trans h.mono h5, h6⟩

theorem stepok_static {s t : St} (txt : String) (h : Evol s t) :
    StepOk s t ⟨.static txt, false⟩ := by
  refine ⟨h, ?_, ?_⟩ <;> intro hf
  · simp_all
  · exact Or.inl ⟨txt, rfl⟩

/-- The fragment left by a failed `ps->str = malloc_or_error(ps, ...)`
assignment: NULL, not owned. -/
theorem stepok_null {s t : St} (h : Evol s t) : StepOk s t ⟨.null, false⟩ := by
  refine ⟨h, ?_, ?_⟩ <;> intro hf
  · simp_all
  · exact Or.inr rfl

/-- The error helper never returns NULL. -/
theorem format_error_not_null (d : String) (e : Int) (o : Oracle) (s : St) :
    (format_error d e o s).1.str ≠ CStr.null := by
  by_cases h1 : o.hasStrerror <;> by_cases h2 : o.feMallocOk <;>
    simp [format_error, mallocS, h1, h2]

theorem stepok_heap {s t : St} {id : Nat} (c : String) (h : Evol s t)
    (hid : id ∈ t.live) (h1 : s.next ≤ id) (h2 : id < t.next) :
    StepOk s t ⟨.heap id c, true⟩ := by
  refine ⟨h, ?_, ?_⟩ <;> intro hf
  · exact ⟨id, c, rfl, hid, h1, h2⟩
  · simp_all

theorem format_error_step (d : String) (e : Int) (o : Oracle) (s : St) :
    StepOk s (format_error d e o s).2 (format_error d e o s).1 := by
  by_cases h1 : o.hasStrerror
  · by_cases h2 : o.feMallocOk
    · simp only [format_error, mallocS, h1, h2, if_true]
      refine stepok_heap _ ?_ ?_ ?_ ?_
      · refine ⟨Nat.le_succ _, ?_, ?_⟩ <;> intro id h
        · rcases List.mem_cons.mp h with h' | h'
          · exact Or.inr ⟨Nat.le_of_eq h'.symm, by rw [h']; exact Nat.lt_succ_self _⟩
          · exact Or.inl h'
        · exact List.mem_cons_of_mem _ h
      · exact List.mem_cons_self _ _
      · exact Nat.le_refl _
      · exact Nat.lt_succ_self _
    · simp only [format_error, mallocS, h1, h2, if_true, Bool.false_eq_true, if_false]
      exact stepok_static _ (Evol.refl s)
  · simp only [format_error, h1, if_false]
    exact stepok_static _ (Evol.refl s)

theorem erase_fresh_cons (a : Nat) (l : List Nat) :
    ((a + 1) :: a :: l).erase a = (a + 1) :: l := by
  rw [List.erase_cons_tail (by simp only [beq_iff_eq]; omega), List.erase_cons_head]

/-- The one-block alloc-then-free round trip restores the live set. -/
theorem evol_allocfree (s : St) (f : List Nat) :
    Evol s { errno := s.errno, next := s.next + 1, live := s.live, freedLog := f } :=
  Evol.of_parts (Nat.le_succ _) rfl

theorem get_formatted_time_step (fmt : String) (o : Oracle) (s : St) :
    StepOk s (get_formatted_time fmt o s).2 (get_formatted_time fmt o s).1 := by
  by_cases ht : o.timeOk
  · by_cases hm : o.tmMallocOk
    · by_cases hlen : (o.strftimeOut fmt).length = 0 ∨
          MAX_STRFTIME_SIZE ≤ (o.strftimeOut fmt).length
      · simp only [get_formatted_time, ht, Bool.not_true, Bool.false_eq_true, if_false,
          mallocS, hm, if_true, hlen, freeS, List.erase_cons_head]
        exact stepok_static _ (evol_allocfree s _)
      · simp only [get_formatted_time, ht, Bool.not_true, Bool.false_eq_true, if_false,
          mallocS, hm, if_true, hlen]
        exact stepok_heap _ ⟨Nat.le_succ _, by
            intro id h
            rcases List.mem_cons.mp h with h' | h'
            · exact Or.inr ⟨Nat.le_of_eq h'.symm, by rw [h']; exact Nat.lt_succ_self _⟩
            · exact Or.inl h', fun id h => List.mem_cons_of_mem _ h⟩
          (List.mem_cons_self _ _) (Nat.le_refl _) (Nat.lt_succ_self _)
    · simp only [get_formatted_time, ht, Bool.not_true, Bool.false_eq_true, if_false,
        mallocS, hm, Bool.false_eq_true, if_false]
      exact stepok_null (Evol.refl s)
  · simp only [get_formatted_time, Bool.not_eq_true', ht, if_true]
    refine StepOk.pre ?_ (format_error_step _ _ o _)
    exact Evol.of_parts (Nat.le_refl _) rfl

/-- A generalisation of `evol_allocfree` over the final errno value. -/
theorem evol_allocfree1 (s : St) (e : Int) (f : List Nat) :
    Evol s { errno := e, next := s.next + 1, live := s.live, freedLog := f } :=
  Evol.of_parts (Nat.le_succ _) rfl

/-- Allocating one fresh block that becomes the fragment. -/
theorem evol_alloc (s : St) (e : Int) (f : List Nat) :
    Evol s { errno := e, next := s.next + 1, live := s.next :: s.live, freedLog := f } := by
  refine ⟨Nat.le_succ _, ?_, fun id h => List.mem_cons_of_mem _ h⟩
  intro id h
  rcases List.mem_cons.mp h with h' | h'
  · exact Or.inr ⟨Nat.le_of_eq h'.symm, by rw [h']; exact Nat.lt_succ_self _⟩
  · exact Or.inl h'

theorem stepok_alloc (s : St) (e : Int) (f : List Nat) (c : String) :
    StepOk s { errno := e, next := s.next + 1, live := s.next :: s.live, freedLog := f }
      ⟨.heap s.next c, true⟩ :=
  stepok_heap c (evol_alloc s e f) (List.mem_cons_self _ _) (Nat.le_refl _) (Nat.lt_succ_self _)

/-- Two allocations, the first of which was freed again. -/
theorem stepok_alloc2 (s : St) (e : Int) (f : List Nat) (c : String) :
    StepOk s { errno := e, next := s.next + 2, live := (s.next + 1) :: s.live, freedLog := f }
      ⟨.heap (s.next + 1) c, true⟩ := by
  refine stepok_heap c ⟨Nat.le_add_right _ _, ?_, fun id h => List.mem_cons_of_mem _ h⟩
    (List.mem_cons_self _ _) (Nat.le_succ _) (Nat.lt_succ_self _)
  intro id h
  rcases List.mem_cons.mp h with h' | h'
  · exact Or.inr ⟨by omega, by rw [h']; exact Nat.lt_succ_self _⟩
  · exact Or.inl h'

theorem get_hostname_step (toDot : Bool) (o : Oracle) (s : St) :
    StepOk s (get_hostname toDot o s).2 (get_hostname toDot o s).1 := by
  by_cases h1 : o.hostSysconfOk
  · by_cases hm : o.hostMallocOk
    · by_cases hh : o.hostnameOk
      · simp only [get_hostname, h1, Bool.not_true, Bool.false_eq_true, if_false, mallocS, hm,
          if_true, hh]
        exact stepok_alloc s _ _ _
      · simp only [get_hostname, h1, Bool.not_true, Bool.false_eq_true, if_false, mallocS, hm,
          if_true, hh, freeS, setErrno, List.erase_cons_head]
        refine StepOk.pre ?_ (format_error_step _ _ o _)
        exact evol_allocfree1 s _ _
    · simp only [get_hostname, h1, Bool.not_true, Bool.false_eq_true, if_false, mallocS, hm,
        if_false]
      exact stepok_null (Evol.refl s)
  · by_cases he : (setErrno o.hostSysconfErrno s).errno = s.errno
    · simp only [get_hostname, Bool.not_eq_true', h1, if_true, he, if_true]
      exact stepok_static _ (Evol.of_parts (Nat.le_refl _) rfl)
    · simp only [get_hostname, Bool.not_eq_true', h1, if_true, he, if_false]
      refine StepOk.pre ?_ (format_error_step _ _ o _)
      exact Evol.of_parts (Nat.le_refl _) rfl

theorem get_tty_basename_step (o : Oracle) (s : St) :
    StepOk s (get_tty_basename o s).2 (get_tty_basename o s).1 := by
  by_cases h1 : o.isattyOk
  · by_cases h2 : o.ttynameOk
    · by_cases hm : o.ttyMallocOk
      · by_cases hb : o.ttyBasenameOk
        · simp only [get_tty_basename, h1, h2, Bool.not_true, Bool.false_eq_true, if_false,
            mallocS, hm, if_true, hb]
          exact stepok_alloc s _ _ _
        · simp only [get_tty_basename, h1, h2, Bool.not_true, Bool.false_eq_true, if_false,
            mallocS, hm, if_true, hb, freeS, setErrno, List.erase_cons_head]
          refine StepOk.pre ?_ (format_error_step _ _ o _)
          exact evol_allocfree1 s _ _
      · simp only [get_tty_basename, h1, h2, Bool.not_true, Bool.false_eq_true, if_false,
          mallocS, hm, if_false]
        exact stepok_null (Evol.refl s)
    · simp only [get_tty_basename, h1, Bool.not_true, Bool.false_eq_true, if_false,
        Bool.not_eq_true', h2, if_true]
      refine StepOk.pre ?_ (format_error_step _ _ o _)
      exact Evol.of_parts (Nat.le_refl _) rfl
  · simp only [get_tty_basename, Bool.not_eq_true', h1, if_true]
    refine StepOk.pre ?_ (format_error_step _ _ o _)
    exact Evol.of_parts (Nat.le_refl _) rfl

theorem get_parent_name_step (o : Oracle) (s : St) :
    StepOk s (get_parent_name o s).2 (get_parent_name o s).1 := by
  by_cases hm : o.parentMallocOk
  · by_cases ha : o.apple
    · by_cases hp : o.procOk
      · simp only [get_parent_name, mallocS, hm, if_true, ha, hp]
        exact stepok_alloc s _ _ _
      · simp only [get_parent_name, mallocS, hm, if_true, ha, hp, Bool.false_eq_true, if_false,
          freeS, setErrno, List.erase_cons_head]
        refine StepOk.pre ?_ (format_error_step _ _ o _)
        exact evol_allocfree1 s _ _
    · simp only [get_parent_name, mallocS, hm, if_true, ha, Bool.false_eq_true, if_false,
        freeS, List.erase_cons_head]
      exact stepok_static _ (evol_allocfree1 s _ _)
  · simp only [get_parent_name, mallocS, hm, Bool.false_eq_true, if_false]
    exact stepok_null (Evol.refl s)

theorem get_username_step (o : Oracle) (s : St) :
    StepOk s (get_username o s).2 (get_username o s).1 := by
  by_cases h1 : o.pwSysconfOk
  · by_cases hm : o.userMallocOk
    · by_cases hg : o.getpwStatus = 0
      · by_cases hf : o.getpwFound
        · by_cases hn : o.userStrndupOk
          · simp only [get_username, h1, Bool.not_true, Bool.false_eq_true, if_false, mallocS,
              hm, if_true, setErrno, hg, ne_eq, not_true_eq_false, hf, hn, freeS,
              erase_fresh_cons]
            exact stepok_alloc2 s _ _ _
          · simp only [get_username, h1, Bool.not_true, Bool.false_eq_true, if_false, mallocS,
              hm, if_true, setErrno, hg, ne_eq, not_true_eq_false, hf, hn, freeS,
              List.erase_cons_head]
            exact stepok_static _ (evol_allocfree1 s _ _)
        · simp only [get_username, h1, Bool.not_true, Bool.false_eq_true, if_false, mallocS,
            hm, if_true, setErrno, hg, ne_eq, not_true_eq_false, hf, freeS,
            List.erase_cons_head]
          exact stepok_static _ (evol_allocfree1 s _ _)
      · simp only [get_username, h1, Bool.not_true, Bool.false_eq_true, if_false, mallocS,
          hm, if_true, setErrno, hg, ne_eq, not_false_eq_true, if_true, freeS,
          List.erase_cons_head]
        refine StepOk.pre ?_ (format_error_step _ _ o _)
        exact evol_allocfree1 s _ _
    · simp only [get_username, h1, Bool.not_true, Bool.false_eq_true, if_false, mallocS, hm]
      exact stepok_static _ (Evol.refl s)
  · by_cases he : s.errno = (setErrno o.pwSysconfErrno s).errno
    · simp only [get_username, Bool.not_eq_true', h1, if_true, he, if_true]
      exact stepok_static _ (Evol.of_parts (Nat.le_refl _) rfl)
    · simp only [get_username, Bool.not_eq_true', h1, if_true, he, if_false]
      refine StepOk.pre ?_ (format_error_step _ _ o _)
      exact Evol.of_parts (Nat.le_refl _) rfl

/-- Correctness of `get_home_dir`'s result encoding: the ledger evolves and
the `enum home_dir_ret` value predicts whether the returned string is a
fresh heap block (1 or -1) or static storage (0 or -2). -/
structure HomeOk (s t : St) (res : CStr × Int) : Prop where
  evol : Evol s t
  range : res.2 = 1 ∨ res.2 = 0 ∨ res.2 = -1 ∨ res.2 = -2
  alloc : res.2 = 1 ∨ res.2 = -1 →
    ∃ id str, res.1 = .heap id str ∧ id ∈ t.live ∧ s.next ≤ id ∧ id < t.next
  noalloc : res.2 = 0 ∨ res.2 = -2 → ∃ str, res.1 = .static str

theorem homeok_static {s t : St} {st : Int} (txt : String) (h : Evol s t)
    (hst : st = 0 ∨ st = -2) : HomeOk s t (.static txt, st) := by
  refine ⟨h, ?_, ?_, fun _ => ⟨txt, rfl⟩⟩
  · rcases hst with h' | h' <;> omega
  · intro hc; rcases hst with h' | h' <;> rcases hc with h'' | h'' <;> omega

/-- The `err_free - 2` arithmetic of `get_home_dir` re-encodes a correct
prompt-string step (for a fragment that is not NULL; `get_home_dir` routes
only error-helper results through it, which never are). -/
theorem homeok_of_step {s t : St} {ps : PromptString} (h : StepOk s t ps)
    (hnn : ps.str ≠ CStr.null) :
    HomeOk s t (ps.str, (if ps.needs_free then 1 else 0) - 2) := by
  by_cases hf : ps.needs_free
  · refine ⟨h.evol, ?_, ?_, ?_⟩ <;> simp [hf]
    obtain ⟨id, str, h1, h2, h3, h4⟩ := h.own hf
    exact ⟨id, ⟨str, h1⟩, h2, h3, h4⟩
  · refine ⟨h.evol, ?_, ?_, ?_⟩ <;> simp [hf]
    rcases h.bor (by simpa using hf) with hs | hn
    · exact hs
    · exact absurd hn hnn

theorem evol_alloc2 (s : St) (e : Int) (f : List Nat) :
    Evol s { errno := e, next := s.next + 2, live := (s.next + 1) :: s.next :: s.live,
             freedLog := f } := by
  refine ⟨Nat.le_add_right _ _, ?_, fun id h => List.mem_cons_of_mem _ (List.mem_cons_of_mem _ h)⟩
  intro id h
  rcases List.mem_cons.mp h with h' | h'
  · exact Or.inr ⟨by rw [h']; exact Nat.le_succ _, by rw [h']; exact Nat.lt_succ_self _⟩
  rcases List.mem_cons.mp h' with h'' | h''
  · exact Or.inr ⟨Nat.le_of_eq h''.symm,
      by rw [h'']; exact Nat.lt_of_lt_of_le (Nat.lt_succ_self _) (Nat.le_succ _)⟩
  · exact Or.inl h''

theorem homeok_alloc2 (s : St) (e : Int) (f : List Nat) (c : String) :
    HomeOk s { errno := e, next := s.next + 2, live := (s.next + 1) :: s.next :: s.live,
               freedLog := f } (.heap (s.next + 1) c, 1) := by
  refine ⟨evol_alloc2 s e f, Or.inl rfl, ?_, ?_⟩
  · intro _
    exact ⟨s.next + 1, c, rfl, List.mem_cons_self _ _, Nat.le_succ _, Nat.lt_succ_self _⟩
  · intro hc; rcases hc with h' | h' <;> omega

theorem get_home_dir_step (o : Oracle) (s : St) :
    HomeOk s (get_home_dir o s).2 (get_home_dir o s).1 := by
  cases hhe : o.homeEnv with
  | some h =>
      simp only [get_home_dir, hhe]
      exact homeok_static _ (Evol.refl s) (Or.inl rfl)
  | none =>
      by_cases h1 : o.hdSysconfOk
      · by_cases hm : o.hdMallocOk
        · by_cases hg : o.hdGetpwStatus = 0
          · by_cases hf : o.hdGetpwFound
            · by_cases hn : o.hdStrndupOk
              · simp only [get_home_dir, hhe, h1, Bool.not_true, Bool.false_eq_true, if_false,
                  mallocS, hm, if_true, setErrno, hg, ne_eq, not_true_eq_false, hf, hn]
                exact homeok_alloc2 s _ _ _
              · simp only [get_home_dir, hhe, h1, Bool.not_true, Bool.false_eq_true, if_false,
                  mallocS, hm, if_true, setErrno, hg, ne_eq, not_true_eq_false, hf, hn]
                exact homeok_static _ (evol_alloc s _ _) (Or.inr rfl)
            · simp only [get_home_dir, hhe, h1, Bool.not_true, Bool.false_eq_true, if_false,
                mallocS, hm, if_true, setErrno, hg, ne_eq, not_true_eq_false, hf]
              exact homeok_static _ (evol_alloc s _ _) (Or.inl rfl)
          · simp only [get_home_dir, hhe, h1, Bool.not_true, Bool.false_eq_true, if_false,
              mallocS, hm, if_true, setErrno, hg, ne_eq, not_false_eq_true, if_true]
            refine homeok_of_step (StepOk.pre ?_ (format_error_step _ _ o _))
              (format_error_not_null _ _ o _)
            exact evol_alloc s _ _
        · simp only [get_home_dir, hhe, h1, Bool.not_true, Bool.false_eq_true, if_false,
            mallocS, hm]
          exact homeok_static _ (Evol.refl s) (Or.inr rfl)
      · by_cases he : s.errno = (setErrno o.hdSysconfErrno s).errno
        · simp only [get_home_dir, hhe, Bool.not_eq_true', h1, if_true, he]
          exact homeok_static _ (Evol.of_parts (Nat.le_refl _) rfl) (Or.inl rfl)
        · simp only [get_home_dir, hhe, Bool.not_eq_true', h1, if_true, he, if_false]
          refine homeok_of_step (StepOk.pre ?_ (format_error_step _ _ o _))
            (format_error_not_null _ _ o _)
          exact Evol.of_parts (Nat.le_refl _) rfl

/-- Freeing a block that is fresh relative to `s` preserves every block
that was live at `s`. -/
theorem evol_free_fresh {s t : St} (h : Evol s t) (hwf : s.wf) {hid : Nat}
    (hfr : s.next ≤ hid) : Evol s (freeS hid t) := by
  refine ⟨h.mono, ?_, ?_⟩
  · intro id hmem
    exact h.live_sub id (List.mem_of_mem_erase hmem)
  · intro id hmem
    have hne : id ≠ hid := fun he => by have := hwf id hmem; omega
    exact (List.mem_erase_of_ne hne).mpr (h.pres id hmem)

/-- The common tail of `get_pwd_tilde` (copy into the fresh result buffer,
or basename extraction), starting from the state after the home value was
resolved and possibly freed. -/
theorem pwd_leaf_step {s s2 : St} (ev2 : Evol s s2) (o : Oracle) (base : Bool)
    (pwd1 : String) (r : PromptString × St)
    (h : (match mallocS o.pwdMallocOk s2 with
          | (none, s3) => some (⟨.null, false⟩, s3)
          | (some id, s3) =>
              if base && !o.pwdBasenameOk then
                let s4 := setErrno o.pwdBasenameErrno (freeS id s3)
                some (format_error "!BASENAMER!" s4.errno o s4)
              else some (⟨.heap id (strlcpyM pwd1 PATH_MAX), true⟩, s3)) = some r) :
    StepOk s r.2 r.1 := by
  by_cases hm : o.pwdMallocOk
  · by_cases hbb : (base && !o.pwdBasenameOk) = true
    · simp only [mallocS, hm, if_true, hbb, freeS, setErrno, List.erase_cons_head,
        Option.some.injEq] at h
      subst h
      refine StepOk.pre ?_ (format_error_step _ _ o _)
      exact ev2.trans (evol_allocfree1 s2 _ _)
    · rw [Bool.not_eq_true] at hbb
      simp only [mallocS, hm, if_true, hbb, Bool.false_eq_true, if_false,
        Option.some.injEq] at h
      subst h
      exact StepOk.pre ev2 (stepok_alloc s2 _ _ _)
  · simp only [mallocS, hm, Bool.false_eq_true, if_false, Option.some.injEq] at h
    subst h
    exact stepok_null ev2

theorem get_pwd_tilde_step (base : Bool) (o : Oracle) (s : St) (hwf : s.wf)
    (r : PromptString × St) (h : get_pwd_tilde base o s = some r) : StepOk s r.2 r.1 := by
  have hh := get_home_dir_step o s
  simp only [get_pwd_tilde] at h
  split at h
  · -- getcwd failed
    rw [Option.some.injEq] at h
    subst h
    refine StepOk.pre ?_ (format_error_step _ _ o _)
    exact Evol.of_parts (Nat.le_refl _) rfl
  · split at h
    · -- negative home status: the home value is the fragment
      next hst =>
      rw [Option.some.injEq] at h
      subst h
      rcases hh.range with h1 | h1 | h1 | h1
      · exact absurd h1 (by omega)
      · exact absurd h1 (by omega)
      · refine ⟨hh.evol, ?_, ?_⟩
        · intro _
          obtain ⟨id, str, h2, h3, h4, h5⟩ := hh.alloc (Or.inr h1)
          exact ⟨id, str, h2, h3, h4, h5⟩
        · intro hf
          rw [h1] at hf
          simp at hf
      · refine ⟨hh.evol, ?_, ?_⟩
        · intro hf
          rw [h1] at hf
          simp at hf
        · intro _
          exact Or.inl (hh.noalloc (Or.inr h1))
    · -- non-negative home status: collapse, free, copy
      split at h
      · exact Option.noConfusion h
      · next pwd1 hcol =>
        by_cases hst1 : (get_home_dir o s).1.2 = 1
        · obtain ⟨hid, hstr, hhs, hlive, hlo, hhi⟩ := hh.alloc (Or.inl hst1)
          rw [hhs] at h
          simp only [hst1, if_true] at h
          exact pwd_leaf_step (evol_free_fresh hh.evol hwf hlo) o base pwd1 r h
        · simp only [hst1, if_false] at h
          exact pwd_leaf_step hh.evol o base pwd1 r h

theorem resolveElem_step (e : PromptElement) (o : Oracle) (s : St) (hwf : s.wf)
    (r : PromptString × St) (h : resolveElem e o s = some r) : StepOk s r.2 r.1 := by
  cases e <;> simp only [resolveElem, Option.some.injEq] at h <;>
    first
      | exact get_pwd_tilde_step _ o s hwf r h
      | (subst h
         first
           | exact stepok_static _ (Evol.refl s)
           | exact get_formatted_time_step _ o s
           | exact get_hostname_step _ o s
           | exact get_tty_basename_step o s
           | exact get_parent_name_step o s
           | exact get_username_step o s)

theorem ownedIds_mem {l : List PromptString} {b : Nat} (h : b ∈ ownedIds l) :
    ∃ f ∈ l, f.needs_free = true ∧ ∃ c, f.str = .heap b c := by
  simp only [ownedIds, List.mem_filterMap] at h
  obtain ⟨f, hf, he⟩ := h
  by_cases hnf : f.needs_free
  · rw [if_pos hnf] at he
    cases hstr : f.str with
    | static c => rw [hstr] at he; exact Option.noConfusion he
    | null => rw [hstr] at he; exact Option.noConfusion he
    | heap id c =>
        rw [hstr] at he
        simp only [Option.some.injEq] at he
        subst he
        exact ⟨f, hf, hnf, c, hstr⟩
  · rw [if_neg hnf] at he
    exact Option.noConfusion he

theorem resolveAll_ok (cat : List PromptElement) (os : Nat → Oracle) :
    ∀ (i : Nat) (s : St), s.wf → ∀ frags s1, resolveAll cat os i s = some (frags, s1) →
      Evol s s1 ∧
      (∀ f ∈ frags,
        (f.needs_free = true →
          ∃ id str, f.str = .heap id str ∧ id ∈ s1.live ∧ s.next ≤ id ∧ id < s1.next) ∧
        (f.needs_free = false →
          (∃ str, f.str = .static str) ∨ f.str = .null)) ∧
      List.Pairwise (· < ·) (ownedIds frags) := by
  induction cat with
  | nil =>
      intro i s hwf frags s1 h
      simp only [resolveAll, Option.some.injEq, Prod.mk.injEq] at h
      obtain ⟨rfl, rfl⟩ := h
      exact ⟨Evol.refl s, by simp, by simp [ownedIds]⟩
  | cons e rest ih =>
      intro i s hwf frags s1 h
      simp only [resolveAll] at h
      cases hre : resolveElem e (os i) s with
      | none => rw [hre] at h; exact Option.noConfusion h
      | some pr =>
          obtain ⟨ps, st⟩ := pr
          rw [hre] at h
          dsimp only at h
          have hstep := resolveElem_step e (os i) s hwf (ps, st) hre
          cases hrest : resolveAll rest os (i + 1) st with
          | none => rw [hrest] at h; exact Option.noConfusion h
          | some pr2 =>
              obtain ⟨l, s2⟩ := pr2
              rw [hrest] at h
              dsimp only at h
              simp only [Option.some.injEq, Prod.mk.injEq] at h
              obtain ⟨rfl, rfl⟩ := h
              have hwf2 : st.wf := hstep.evol.wf hwf
              obtain ⟨hev, hfr, hpw⟩ := ih (i + 1) st hwf2 l s2 hrest
              refine ⟨hstep.evol.trans hev, ?_, ?_⟩
              · intro f hf
                rcases List.mem_cons.mp hf with rfl | hf'
                · refine ⟨?_, hstep.bor⟩
                  intro ht
                  obtain ⟨id, str, h1, h2, h3, h4⟩ := hstep.own ht
                  exact ⟨id, str, h1, hev.pres id h2, h3, Nat.lt_of_lt_of_le h4 hev.mono⟩
                · obtain ⟨ho, hb⟩ := hfr f hf'
                  refine ⟨?_, hb⟩
                  intro ht
                  obtain ⟨id, str, h1, h2, h3, h4⟩ := ho ht
                  exact ⟨id, str, h1, h2, Nat.le_trans hstep.evol.mono h3, h4⟩
              · simp only [ownedIds, List.filterMap_cons]
                by_cases hnf : ps.needs_free
                · obtain ⟨id, str, h1, h2, h3, h4⟩ := hstep.own hnf
                  rw [h1, if_pos hnf]
                  refine List.Pairwise.cons ?_ hpw
                  intro b hb
                  obtain ⟨f, hfmem, hfnf, c, hfstr⟩ := ownedIds_mem hb
                  obtain ⟨ho, _⟩ := hfr f hfmem
                  obtain ⟨id2, str2, h1', h2', h3', h4'⟩ := ho hfnf
                  rw [hfstr] at h1'
                  obtain ⟨rfl, rfl⟩ : b = id2 ∧ c = str2 := by
                    cases h1'
                    exact ⟨rfl, rfl⟩
                  exact Nat.lt_of_lt_of_le h4 h3'
                · rw [if_neg hnf]
                  exact hpw

theorem exploded_prompt_free_log (frags : List PromptString) :
    ∀ s : St, (exploded_prompt_free frags s).freedLog = s.freedLog ++ ownedIds frags := by
  induction frags with
  | nil => intro s; simp [exploded_prompt_free, ownedIds]
  | cons f rest ih =>
      intro s
      by_cases hnf : f.needs_free
      · cases hstr : f.str with
        | static c => simp [exploded_prompt_free, ownedIds, hnf, hstr, ih]
        | null => simp [exploded_prompt_free, ownedIds, hnf, hstr, ih]
        | heap id c => simp [exploded_prompt_free, ownedIds, hnf, hstr, ih, freeS]
      · simp [exploded_prompt_free, ownedIds, hnf, ih]

/-- C1: for every catalog and every oracle-driven resolution path, every
fragment's `needs_free` flag is true exactly when its text is a freshly
allocated, still-live heap block (false meaning nothing owned: the fragment
is static storage — or the NULL that a failed
`ps->str = malloc_or_error(ps, ...)` assignment stores over the `!MALLOC!`
token, with the flag already cleared by the helper), the owned fragments'
blocks are pairwise distinct (so `exploded_prompt_free` frees each owned
fragment exactly once), and the frees performed by `exploded_prompt_free`
are precisely the owned fragments' blocks — none of the borrowed fragments
is ever freed (`free` is applied only under a set flag, and a NULL fragment
always carries a cleared flag). -/
theorem c1_ownership_discipline (cat : List PromptElement) (os : Nat → Oracle)
    (arrOk : Bool) (e : Int) (frags : List PromptString) (s1 : St)
    (h : make_exploded_prompt cat os arrOk ⟨e, 0, [], []⟩ = some (frags, s1)) :
    (∀ f ∈ frags,
      (f.needs_free = true → ∃ id str, f.str = .heap id str ∧ id ∈ s1.live) ∧
      (f.needs_free = false → (∃ str, f.str = .static str) ∨ f.str = .null)) ∧
    (ownedIds frags).Nodup ∧
    (exploded_prompt_free frags s1).freedLog = s1.freedLog ++ ownedIds frags := by
  by_cases ha : arrOk
  · rw [make_exploded_prompt, if_pos ha] at h
    have hwf : St.wf ⟨e, 0, [], []⟩ := by
      intro id hid
      exact absurd hid (List.not_mem_nil id)
    obtain ⟨_, hfr, hpw⟩ := resolveAll_ok cat os 0 ⟨e, 0, [], []⟩ hwf frags s1 h
    refine ⟨?_, ?_, exploded_prompt_free_log frags s1⟩
    · intro f hf
      obtain ⟨ho, hb⟩ := hfr f hf
      refine ⟨?_, hb⟩
      intro ht
      obtain ⟨id, str, h1, h2, _, _⟩ := ho ht
      exact ⟨id, str, h1, h2⟩
    · exact hpw.imp Nat.ne_of_lt
  · rw [make_exploded_prompt, if_neg ha] at h
    exact Option.noConfusion h

/-! ## Concrete oracles for witnesses and counterexamples -/

/-- An oracle on which every OS call succeeds (no `strerrorname_np`, the
non-`__APPLE__` build). -/
def oAllOk : Oracle := {
  hasStrerror := false, errName := fun _ => "", feMallocOk := true,
  timeOk := true, timeErrno := none, tmMallocOk := true,
  strftimeOut := fun _ => "12:34",
  hostSysconfOk := true, hostSysconfErrno := none, hostMallocOk := true,
  hostnameOk := true, hostnameErrno := none, hostname := "mac.local",
  isattyOk := true, isattyErrno := none, ttynameOk := true, ttynameErrno := none,
  ttyname := "/dev/pts/3", ttyMallocOk := true, ttyBasenameOk := true,
  ttyBasenameErrno := none, basenameOf := fun _ => "3",
  apple := false, parentMallocOk := true, procOk := true, procErrno := none,
  procPath := "/bin/zsh",
  pwSysconfOk := true, pwSysconfErrno := none, userMallocOk := true,
  getpwStatus := 0, getpwErrno := none, getpwFound := true, pwName := "bob",
  userStrndupOk := true,
  homeEnv := some "/home/alice", hdSysconfOk := true, hdSysconfErrno := none,
  hdMallocOk := true, hdGetpwStatus := 0, hdGetpwErrno := none, hdGetpwFound := true,
  pwDir := "/home/alice", hdStrndupOk := true,
  getcwdOk := true, getcwdErrno := none, cwd := "/home/alice/proj", pwdMallocOk := true,
  pwdBasenameOk := true, pwdBasenameErrno := none, euid := 1000 }

/-- Process-start state: errno 0, empty heap. -/
def st0 : St := ⟨0, 0, [], []⟩

theorem c1_ownership_discipline_witness :
    (∀ f ∈ ([⟨.static "hi ", false⟩, ⟨.heap 1 "bob", true⟩,
             ⟨.static "!", false⟩] : List PromptString),
      (f.needs_free = true → ∃ id str, f.str = .heap id str ∧ id ∈ [1]) ∧
      (f.needs_free = false → (∃ str, f.str = .static str) ∨ f.str = .null)) ∧
    (ownedIds [⟨.static "hi ", false⟩, ⟨.heap 1 "bob", true⟩,
               ⟨.static "!", false⟩]).Nodup ∧
    (exploded_prompt_free
        [⟨.static "hi ", false⟩, ⟨.heap 1 "bob", true⟩, ⟨.static "!", false⟩]
        ⟨0, 2, [1], [0]⟩).freedLog =
      [0] ++ ownedIds [⟨.static "hi ", false⟩, ⟨.heap 1 "bob", true⟩,
                       ⟨.static "!", false⟩] :=
  c1_ownership_discipline
    [.stringLiteral "hi ", .username, .stringLiteral "!"] (fun _ => oAllOk) true 0
    [⟨.static "hi ", false⟩, ⟨.heap 1 "bob", true⟩, ⟨.static "!", false⟩]
    ⟨0, 2, [1], [0]⟩ (by decide)

/-- C2: on a platform with `strerrorname_np`, `format_error` does NOT
produce `!<NAME>!`: the buffer is sized `2 + strnlen(name, 20)`, which
accounts for both bangs but not the NUL terminator, so the bounded
`strlcat` drops the trailing bang.  At errno 1 (name `EPERM`) the owned
result is `"!EPERM"`, not `"!EPERM!"`. -/
theorem c2_format_error_drops_trailing_bang :
    (format_error "!DEF!" 1
        { oAllOk with hasStrerror := true, errName := fun _ => "EPERM" } st0).1 =
      ⟨.heap 0 "!EPERM", true⟩ ∧ "!EPERM" ≠ "!EPERM!" :=
  ⟨by decide, by decide⟩

/-- C3: when the allocation for the canonical form fails, `format_error`
returns the caller-supplied default token, borrowed — it never propagates
the failure. -/
theorem c3_format_error_alloc_fallback (d : String) (e : Int) (o : Oracle) (s : St)
    (h1 : o.hasStrerror = true) (h2 : o.feMallocOk = false) :
    format_error d e o s = (⟨.static d, false⟩, s) := by
  simp [format_error, mallocS, h1, h2]

theorem c3_format_error_alloc_fallback_witness :
    format_error "!TIME!" 7
        { oAllOk with hasStrerror := true, feMallocOk := false } st0 =
      (⟨.static "!TIME!", false⟩, st0) :=
  c3_format_error_alloc_fallback "!TIME!" 7
    { oAllOk with hasStrerror := true, feMallocOk := false } st0 rfl rfl

/-- C4: the six time kinds dispatch to `get_formatted_time` with their fixed
patterns (the custom kind with the caller's pattern), and
`get_formatted_time` behaves as specified on the three described paths:
clock failure yields the error-helper result for `!TIME!`; when the buffer
is allocated and `strftime` produces no output (empty, or not fitting in
the capacity-50 buffer) the buffer is freed and the fragment is the
borrowed `!STRFTIME!` constant; otherwise the fragment is the owned
formatted buffer, still live. -/
theorem c4_time_resolver (fmt : String) (o : Oracle) (s : St) (hwf : s.wf) :
    resolveElem .weekMonthDay o s = some (get_formatted_time "%a %b %d" o s) ∧
    resolveElem (.strftimeDate fmt) o s = some (get_formatted_time fmt o s) ∧
    resolveElem .hourMinuteSecond24 o s = some (get_formatted_time "%H:%M:%S" o s) ∧
    resolveElem .hourMinuteSecond12 o s = some (get_formatted_time "%I:%M:%S" o s) ∧
    resolveElem .timeAmPm o s = some (get_formatted_time "%I:%M %p" o s) ∧
    resolveElem .hourMinute24 o s = some (get_formatted_time "%H:%M" o s) ∧
    (o.timeOk = false →
      get_formatted_time fmt o s =
        format_error "!TIME!" (setErrno o.timeErrno s).errno o (setErrno o.timeErrno s)) ∧
    (o.timeOk = true → o.tmMallocOk = true →
      (((o.strftimeOut fmt).length = 0 ∨ MAX_STRFTIME_SIZE ≤ (o.strftimeOut fmt).length) →
        (get_formatted_time fmt o s).1 = ⟨.static "!STRFTIME!", false⟩ ∧
        s.next ∈ (get_formatted_time fmt o s).2.freedLog ∧
        s.next ∉ (get_formatted_time fmt o s).2.live) ∧
      (¬((o.strftimeOut fmt).length = 0 ∨ MAX_STRFTIME_SIZE ≤ (o.strftimeOut fmt).length) →
        (get_formatted_time fmt o s).1 = ⟨.heap s.next (o.strftimeOut fmt), true⟩ ∧
        s.next ∈ (get_formatted_time fmt o s).2.live)) := by
  refine ⟨rfl, rfl, rfl, rfl, rfl, rfl, ?_, ?_⟩
  · intro ht
    simp [get_formatted_time, ht]
  · intro ht hm
    constructor
    · intro hlen
      refine ⟨?_, ?_, ?_⟩ <;>
        simp only [get_formatted_time, ht, Bool.not_true, Bool.false_eq_true, if_false,
          mallocS, hm, if_true, hlen, freeS, List.erase_cons_head, List.mem_append,
          List.mem_singleton, or_true]
      intro hmem
      exact absurd (hwf s.next hmem) (by omega)
    · intro hlen
      refine ⟨?_, ?_⟩ <;>
        simp only [get_formatted_time, ht, Bool.not_true, Bool.false_eq_true, if_false,
          mallocS, hm, if_true, hlen, if_false, List.mem_cons, true_or]

theorem c4_time_resolver_witness :
    (get_formatted_time "%H" { oAllOk with timeOk := false, timeErrno := some 4 } st0 =
      format_error "!TIME!"
        (setErrno (some 4) st0).errno { oAllOk with timeOk := false, timeErrno := some 4 }
        (setErrno (some 4) st0)) ∧
    ((get_formatted_time "%H" { oAllOk with strftimeOut := fun _ => "" } st0).1 =
      ⟨.static "!STRFTIME!", false⟩) ∧
    ((get_formatted_time "%H" oAllOk st0).1 = ⟨.heap 0 "12:34", true⟩) := by
  refine ⟨?_, ?_, ?_⟩
  · exact (c4_time_resolver "%H" { oAllOk with timeOk := false, timeErrno := some 4 } st0
      (by intro id hid; simp [st0] at hid)).2.2.2.2.2.2.1 rfl
  · exact (((c4_time_resolver "%H" { oAllOk with strftimeOut := fun _ => "" } st0
      (by intro id hid; simp [st0] at hid)).2.2.2.2.2.2.2 rfl rfl).1 (by decide)).1
  · exact (((c4_time_resolver "%H" oAllOk st0
      (by intro id hid; simp [st0] at hid)).2.2.2.2.2.2.2 rfl rfl).2 (by decide)).1

/-- C6 (code bug): `get_home_dir` never frees the `pwbuf` scratch block it
allocates for `getpwuid_r`.  On the successful-lookup path the scratch
block (id 0) is still live at return alongside the returned home block
(id 1), and nothing was ever freed; the same leak occurs on the
lookup-error path and the no-matching-record path. -/
theorem c6_home_dir_scratch_leaked :
    (get_home_dir { oAllOk with homeEnv := none } st0 =
      ((.heap 1 "/home/alice", 1), ⟨0, 2, [1, 0], []⟩)) ∧
    (get_home_dir { oAllOk with homeEnv := none, hdGetpwStatus := 22 } st0 =
      ((.static "!GETPWUIDR!", -2), ⟨0, 1, [0], []⟩)) ∧
    (get_home_dir { oAllOk with homeEnv := none, hdGetpwFound := false } st0 =
      ((.static "!USERNOTFOUND!", 0), ⟨0, 1, [0], []⟩)) := by
  refine ⟨?_, ?_, ?_⟩ <;> decide

/-- C7 (counterexample): an allocation failure inside a resolver does not
always degrade the fragment to the borrowed `!MALLOC!` token.  When the time
resolver's buffer malloc fails, `ps->str = malloc_or_error(ps, ...)` stores
the helper's NULL return over the token the helper had just written, so the
fragment is NULL, not `!MALLOC!`; and when the username resolver's `strndup`
fails, the fragment is the borrowed `!STRNDUP!` token. -/
theorem c7_alloc_failure_counterexample :
    (get_formatted_time "%H" { oAllOk with tmMallocOk := false } st0).1 =
      ⟨.null, false⟩ ∧
    (get_username { oAllOk with userStrndupOk := false } st0).1 =
      ⟨.static "!STRNDUP!", false⟩ ∧
    CStr.null ≠ .static "!MALLOC!" ∧ "!STRNDUP!" ≠ "!MALLOC!" :=
  ⟨by decide, by decide, by decide, by decide⟩

theorem resolveAll_length (cat : List PromptElement) (os : Nat → Oracle) :
    ∀ i s frags s1, resolveAll cat os i s = some (frags, s1) →
      frags.length = cat.length := by
  induction cat with
  | nil =>
      intro i s frags s1 h
      simp only [resolveAll, Option.some.injEq, Prod.mk.injEq] at h
      obtain ⟨rfl, rfl⟩ := h
      rfl
  | cons e rest ih =>
      intro i s frags s1 h
      simp only [resolveAll] at h
      cases hre : resolveElem e (os i) s with
      | none => rw [hre] at h; exact Option.noConfusion h
      | some pr =>
          obtain ⟨ps, st⟩ := pr
          rw [hre] at h
          dsimp only at h
          cases hrest : resolveAll rest os (i + 1) st with
          | none => rw [hrest] at h; exact Option.noConfusion h
          | some pr2 =>
              obtain ⟨l, s2⟩ := pr2
              rw [hrest] at h
              dsimp only at h
              simp only [Option.some.injEq, Prod.mk.injEq] at h
              obtain ⟨rfl, rfl⟩ := h
              simp [ih (i + 1) st l s2 hrest]

/-- C7 (amended): at the five sites that assign
`ps->str = malloc_or_error(ps, ...)` (the time, hostname, tty, parent and
cwd resolvers' result buffers), an allocation failure does NOT leave the
`!MALLOC!` token: the assignment stores the helper's NULL return over the
token, leaving a non-owned NULL fragment.  The token survives only where the
helper's return is not stored into `ps->str`: the username resolver's
scratch (`buf = malloc_or_error(...)`) and the home-lookup scratch
(surfacing through the cwd resolver's status passthrough).  A `strndup`
failure degrades the fragment to borrowed `!STRNDUP!`; the error helper's
internal allocation failure falls back to the borrowed default token; and
resolution still produces the full catalog-length sequence. -/
theorem c7_alloc_failure_amended (o : Oracle) (s : St) (fmt : String)
    (toDot base : Bool) (h : String) :
    (o.timeOk = true → o.tmMallocOk = false →
      (get_formatted_time fmt o s).1 = ⟨.null, false⟩) ∧
    (o.hostSysconfOk = true → o.hostMallocOk = false →
      (get_hostname toDot o s).1 = ⟨.null, false⟩) ∧
    (o.isattyOk = true → o.ttynameOk = true → o.ttyMallocOk = false →
      (get_tty_basename o s).1 = ⟨.null, false⟩) ∧
    (o.parentMallocOk = false →
      (get_parent_name o s).1 = ⟨.null, false⟩) ∧
    (o.pwSysconfOk = true → o.userMallocOk = false →
      (get_username o s).1 = ⟨.static "!MALLOC!", false⟩) ∧
    (o.pwSysconfOk = true → o.userMallocOk = true → o.getpwStatus = 0 →
      o.getpwFound = true → o.userStrndupOk = false →
      (get_username o s).1 = ⟨.static "!STRNDUP!", false⟩) ∧
    (o.getcwdOk = true → o.homeEnv = none → o.hdSysconfOk = true → o.hdMallocOk = false →
      get_pwd_tilde base o s = some (⟨.static "!MALLOC!", false⟩, s)) ∧
    (o.getcwdOk = true → o.homeEnv = some h → ¬(findSub o.cwd h = some 0) →
      o.pwdMallocOk = false →
      get_pwd_tilde base o s = some (⟨.null, false⟩, s)) ∧
    (∀ cat os1 arrOk s2 frags s1,
      make_exploded_prompt cat os1 arrOk s2 = some (frags, s1) →
      frags.length = cat.length) := by
  refine ⟨?_, ?_, ?_, ?_, ?_, ?_, ?_, ?_, ?_⟩
  · intro ht hm
    simp [get_formatted_time, ht, mallocS, hm]
  · intro h1 hm
    simp [get_hostname, h1, mallocS, hm]
  · intro h1 h2 hm
    simp [get_tty_basename, h1, h2, mallocS, hm]
  · intro hm
    simp [get_parent_name, mallocS, hm]
  · intro h1 hm
    simp [get_username, h1, mallocS, hm]
  · intro h1 hm hg hf hn
    simp [get_username, h1, mallocS, hm, hg, hf, hn]
  · intro hc hhe h1 hm
    simp [get_pwd_tilde, hc, get_home_dir, hhe, h1, mallocS, hm]
  · intro hc hhe hfind hm
    simp [get_pwd_tilde, hc, get_home_dir, hhe, CStr.text, hfind, mallocS, hm]
  · intro cat os1 arrOk s2 frags s1 hmk
    by_cases ha : arrOk
    · rw [make_exploded_prompt, if_pos ha] at hmk
      exact resolveAll_length cat os1 0 s2 frags s1 hmk
    · rw [make_exploded_prompt, if_neg ha] at hmk
      exact Option.noConfusion hmk

theorem c7_alloc_failure_amended_witness :
    ((get_formatted_time "%H" { oAllOk with tmMallocOk := false } st0).1 =
      ⟨.null, false⟩) ∧
    ((get_username { oAllOk with userMallocOk := false } st0).1 =
      ⟨.static "!MALLOC!", false⟩) ∧
    ((get_username { oAllOk with userStrndupOk := false } st0).1 =
      ⟨.static "!STRNDUP!", false⟩) ∧
    (get_pwd_tilde false { oAllOk with homeEnv := none, hdMallocOk := false } st0 =
      some (⟨.static "!MALLOC!", false⟩, st0)) ∧
    (get_pwd_tilde false { oAllOk with cwd := "/etc", pwdMallocOk := false } st0 =
      some (⟨.null, false⟩, st0)) := by
  refine ⟨?_, ?_, ?_, ?_, ?_⟩
  · exact (c7_alloc_failure_amended { oAllOk with tmMallocOk := false } st0 "%H"
      true false "").1 rfl rfl
  · exact (c7_alloc_failure_amended { oAllOk with userMallocOk := false } st0 "%H"
      true false "").2.2.2.2.1 rfl rfl
  · exact (c7_alloc_failure_amended { oAllOk with userStrndupOk := false } st0 "%H"
      true false "").2.2.2.2.2.1 rfl rfl rfl rfl rfl
  · exact (c7_alloc_failure_amended { oAllOk with homeEnv := none, hdMallocOk := false }
      st0 "%H" true false "").2.2.2.2.2.2.1 rfl rfl rfl rfl
  · exact (c7_alloc_failure_amended { oAllOk with cwd := "/etc", pwdMallocOk := false }
      st0 "%H" true false "/home/alice").2.2.2.2.2.2.2.1 rfl rfl (by decide) rfl

/-! ## The tilde collapse -/

/-- `strnstr`'s result points at the start of the buffer exactly when the
needle is a character prefix of the haystack. -/
theorem findSub_zero_iff (hay needle : String) :
    (findSub hay needle = some 0) ↔ needle.data.isPrefixOf hay.data = true := by
  unfold findSub
  rw [List.range_succ_eq_map, List.find?_cons]
  by_cases hp : needle.data.isPrefixOf (hay.data.drop 0) = true
  · simp only [hp]
    simp only [List.drop_zero] at hp
    simp [hp]
  · rw [Bool.not_eq_true] at hp
    simp only [hp]
    simp only [List.drop_zero] at hp
    constructor
    · intro h
      have h0 := List.mem_of_find?_eq_some h
      simp at h0
    · intro h
      rw [h] at hp
      exact Bool.noConfusion hp

/-- The shift loop copies, to each position from `i` on, the original cell
`len` places further right, stopping at the terminator: it yields the
original suffix starting at `i + len`. -/
theorem tildeLoop_eq (pwd : List Char) (len i : Nat) :
    tildeLoop pwd len i = pwd.drop (i + len) := by
  have H : ∀ n i, pwd.length - i ≤ n → tildeLoop pwd len i = pwd.drop (i + len) := by
    intro n
    induction n with
    | zero =>
        intro i hle
        rw [tildeLoop]
        split
        · next heq => exact heq.symm
        · next c rest heq =>
            exfalso
            have hlt : i + len < pwd.length := by
              by_contra hc
              rw [List.drop_eq_nil_of_le (by omega)] at heq
              simp at heq
            omega
    | succ n ih =>
        intro i hle
        rw [tildeLoop]
        split
        · next heq => exact heq.symm
        · next c rest heq =>
            have hlt : i + len < pwd.length := by
              by_contra hc
              rw [List.drop_eq_nil_of_le (by omega)] at heq
              simp at heq
            have h2 : pwd.drop (i + 1 + len) = (pwd.drop (i + len)).tail := by
              rw [List.tail_drop]
              congr 1
              omega
            rw [ih (i + 1) (by omega), h2, heq]
            rfl
  exact H (pwd.length - i) i (Nat.le_refl _)

/-- General description of the plain cwd resolver's fragment: the working
directory with a leading (nonempty) home string collapsed to `~`, owned. -/
theorem pwd_tilde_view (o : Oracle) (s : St) (h p : String)
    (hcw : o.getcwdOk = true) (hcwd : o.cwd = p) (hh : o.homeEnv = some h)
    (hne : h ≠ "") (hplen : p.length < PATH_MAX) (hm : o.pwdMallocOk = true) :
    (get_pwd_tilde false o s).map (fun r => r.1.view) =
      some (if h.data.isPrefixOf p.data then "~" ++ String.mk (p.data.drop h.length)
            else p, true) := by
  have hlen0 : h.length ≠ 0 := by
    intro h0
    exact hne (String.ext (List.eq_nil_of_length_eq_zero h0))
  simp only [get_pwd_tilde, hcw, Bool.not_true, Bool.false_eq_true, if_false,
    get_home_dir, hh, hcwd]
  norm_num only
  by_cases hpre : h.data.isPrefixOf p.data = true
  · have hfind : findSub p h = some 0 := (findSub_zero_iff p h).mpr hpre
    have hhp : h.length ≤ p.length :=
      List.IsPrefix.length_le (List.isPrefixOf_iff_prefix.mp hpre)
    have hmin : min h.length PATH_MAX = h.length := by omega
    simp only [CStr.text, hfind, if_true, hmin, hlen0, if_false, mallocS, hm, if_true,
      Bool.false_and, Bool.false_eq_true, tildeLoop_eq]
    have harith : 1 + (h.length - 1) = h.length := by omega
    simp only [harith, hpre, if_true, Option.map_some', Option.some.injEq,
      PromptString.view, CStr.text, Prod.mk.injEq, and_true]
    refine String.ext ?_
    show ('~' :: p.data.drop h.length).take (PATH_MAX - 1) = '~' :: p.data.drop h.length
    refine List.take_of_length_le ?_
    have hp' : p.data.length = p.length := rfl
    simp only [List.length_cons, List.length_drop]
    omega
  · have hfind : findSub p h ≠ some 0 := fun hf => hpre ((findSub_zero_iff p h).mp hf)
    simp only [CStr.text, hfind, if_false, mallocS, hm, if_true, Bool.false_and,
      Bool.false_eq_true, hpre, Option.map_some', Option.some.injEq, PromptString.view,
      Prod.mk.injEq, and_true]
    refine String.ext ?_
    show p.data.take (PATH_MAX - 1) = p.data
    refine List.take_of_length_le ?_
    have hp' : p.data.length = p.length := rfl
    omega

/-- C5: for the plain cwd resolver, when the working directory begins with
the (nonempty) home string, the fragment text is the working directory with
that home prefix replaced by a single `~` (the remainder shifted left by
`home_length − 1` cells, i.e. the characters from index `home_length` on);
otherwise the fragment text is the working directory unchanged.  The
fragment is owned either way. -/
theorem c5_pwd_tilde_collapse (o : Oracle) (s : St) (h p : String)
    (hcw : o.getcwdOk = true) (hcwd : o.cwd = p) (hh : o.homeEnv = some h)
    (hne : h ≠ "") (hplen : p.length < PATH_MAX) (hm : o.pwdMallocOk = true) :
    (get_pwd_tilde false o s).map (fun r => r.1.view) =
      some (if h.data.isPrefixOf p.data then "~" ++ String.mk (p.data.drop h.length)
            else p, true) :=
  pwd_tilde_view o s h p hcw hcwd hh hne hplen hm

theorem c5_pwd_tilde_collapse_witness :
    ((get_pwd_tilde false oAllOk st0).map (fun r => r.1.view) =
      some ("~/proj", true)) ∧
    ((get_pwd_tilde false { oAllOk with cwd := "/etc" } st0).map (fun r => r.1.view) =
      some ("/etc", true)) := by
  constructor
  · have h := c5_pwd_tilde_collapse oAllOk st0 "/home/alice" "/home/alice/proj"
      rfl rfl rfl (by decide) (by decide) rfl
    rw [h]
    decide
  · have h := c5_pwd_tilde_collapse { oAllOk with cwd := "/etc" } st0 "/home/alice" "/etc"
      rfl rfl rfl (by decide) (by decide) rfl
    rw [h]
    decide

/-- C10: the tilde collapse is a plain character-prefix match, not a
path-component match: whenever the (nonempty) home string is a character
prefix of the working directory, the prefix is replaced by `~` — even when
the match does not end at a path separator (e.g. home `/home/al` and
working directory `/home/alice` yield `~ice`). -/
theorem c10_prefix_match_is_char_level (o : Oracle) (s : St) (h p : String)
    (hcw : o.getcwdOk = true) (hcwd : o.cwd = p) (hh : o.homeEnv = some h)
    (hne : h ≠ "") (hplen : p.length < PATH_MAX) (hm : o.pwdMallocOk = true)
    (hpre : h.data.isPrefixOf p.data = true) :
    (get_pwd_tilde false o s).map (fun r => r.1.view) =
      some ("~" ++ String.mk (p.data.drop h.length), true) := by
  rw [pwd_tilde_view o s h p hcw hcwd hh hne hplen hm, hpre]
  simp

theorem c10_prefix_match_is_char_level_witness :
    (get_pwd_tilde false { oAllOk with homeEnv := some "/home/al", cwd := "/home/alice" }
        st0).map (fun r => r.1.view) = some ("~ice", true) := by
  have hw := c10_prefix_match_is_char_level
    { oAllOk with homeEnv := some "/home/al", cwd := "/home/alice" } st0
    "/home/al" "/home/alice" rfl rfl rfl (by decide) (by decide) rfl (by decide)
  rw [hw]
  decide

/-! ## The output contract -/

/-- The fragment texts concatenated in catalog order with no separator. -/
def concatTexts (frags : List PromptString) : String :=
  match frags with
  | [] => ""
  | f :: rest => f.str.text ++ concatTexts rest

theorem print_loop_eq (frags : List PromptString) (hne : frags ≠ [])
    (hnn : ∀ f ∈ frags, f.str ≠ CStr.null) :
    print_loop frags = some (concatTexts frags ++ "\n") := by
  induction frags with
  | nil => exact absurd rfl hne
  | cons f rest ih =>
      have hf : f.str ≠ CStr.null := hnn f (List.mem_cons_self _ _)
      cases rest with
      | nil => simp [print_loop, concatTexts, hf]
      | cons g rest2 =>
          rw [show print_loop (f :: g :: rest2) =
                (if f.str = .null then none
                 else (print_loop (g :: rest2)).map (fun r => f.str.text ++ r)) from rfl,
              if_neg hf,
              ih (by simp) (fun x hx => hnn x (List.mem_cons_of_mem _ hx)),
              show concatTexts (f :: g :: rest2) = f.str.text ++ concatTexts (g :: rest2)
                from rfl]
          simp [String.append_assoc]

/-- C8: for every (nonempty) catalog, whenever no fragment is the NULL left
by a failed `ps->str = malloc_or_error(ps, ...)` assignment (printing such a
fragment with `printf("%s", ...)` would be undefined behavior — the C7
clobber), the program's entire output is the resolved fragment texts
concatenated in catalog order with no separator, followed by exactly one
newline, and the resolved sequence has the same length as the catalog.  (A
zero-length `prompt[]` array is not valid C, so catalogs are nonempty.) -/
theorem c8_output_contract (cat : List PromptElement) (os : Nat → Oracle)
    (arrOk : Bool) (s : St) (frags : List PromptString) (s1 : St) (hne : cat ≠ [])
    (h : make_exploded_prompt cat os arrOk s = some (frags, s1))
    (hnn : ∀ f ∈ frags, f.str ≠ CStr.null) :
    cprompt_main cat os arrOk s = some (concatTexts frags ++ "\n") ∧
    frags.length = cat.length := by
  have ha : arrOk = true := by
    by_contra hna
    rw [make_exploded_prompt, if_neg hna] at h
    exact Option.noConfusion h
  have hres : resolveAll cat os 0 s = some (frags, s1) := by
    rw [make_exploded_prompt, if_pos ha] at h
    exact h
  have hlen := resolveAll_length cat os 0 s frags s1 hres
  have hfne : frags ≠ [] := by
    intro hf
    rw [hf] at hlen
    exact hne (List.eq_nil_of_length_eq_zero hlen.symm)
  refine ⟨?_, hlen⟩
  rw [cprompt_main, h]
  dsimp only
  rw [print_loop_eq frags hfne hnn]

theorem c8_output_contract_witness :
    cprompt_main [.stringLiteral "hi ", .username, .stringLiteral "!"] (fun _ => oAllOk)
        true st0 =
      some (concatTexts [⟨.static "hi ", false⟩, ⟨.heap 1 "bob", true⟩,
                         ⟨.static "!", false⟩] ++ "\n") ∧
    ([⟨.static "hi ", false⟩, ⟨.heap 1 "bob", true⟩,
      ⟨.static "!", false⟩] : List PromptString).length =
      ([.stringLiteral "hi ", .username,
        .stringLiteral "!"] : List PromptElement).length :=
  c8_output_contract [.stringLiteral "hi ", .username, .stringLiteral "!"]
    (fun _ => oAllOk) true st0
    [⟨.static "hi ", false⟩, ⟨.heap 1 "bob", true⟩, ⟨.static "!", false⟩]
    ⟨0, 2, [1], [0]⟩ (by decide) (by decide) (by decide)

/-! ## Observational determinism of a resolution in its own oracle and the
incoming errno -/

/-- Observational relation between two optional resolver outcomes: equally
defined, same fragment view (text and ownership), same resulting errno. -/
def viewRel : Option (PromptString × St) → Option (PromptString × St) → Prop
  | none, none => True
  | some r1, some r2 => r1.1.view = r2.1.view ∧ r1.2.errno = r2.2.errno
  | _, _ => False

theorem format_error_congr (d : String) (e : Int) (o : Oracle) (s t : St) :
    (format_error d e o s).1.view = (format_error d e o t).1.view ∧
    (format_error d e o s).2.errno = s.errno ∧
    (format_error d e o t).2.errno = t.errno := by
  by_cases h1 : o.hasStrerror <;> by_cases h2 : o.feMallocOk <;>
    simp [format_error, mallocS, h1, h2, PromptString.view, CStr.text]

theorem gft_congr (fmt : String) (o : Oracle) (s t : St) (he : s.errno = t.errno) :
    (get_formatted_time fmt o s).1.view = (get_formatted_time fmt o t).1.view ∧
    (get_formatted_time fmt o s).2.errno = (get_formatted_time fmt o t).2.errno := by
  by_cases h1 : o.timeOk
  · by_cases hm : o.tmMallocOk
    · by_cases hl : (o.strftimeOut fmt).length = 0 ∨
          MAX_STRFTIME_SIZE ≤ (o.strftimeOut fmt).length
      · simp [get_formatted_time, h1, hm, hl, mallocS, freeS, PromptString.view,
          CStr.text, he]
      · simp [get_formatted_time, h1, hm, hl, mallocS, PromptString.view, CStr.text, he]
    · simp [get_formatted_time, h1, hm, mallocS, PromptString.view, CStr.text, he]
  · rw [Bool.not_eq_true] at h1
    have hee : (setErrno o.timeErrno s).errno = (setErrno o.timeErrno t).errno := by
      simp [setErrno, he]
    simp only [get_formatted_time, h1, Bool.not_false, if_true]
    rw [hee]
    refine ⟨(format_error_congr "!TIME!" _ o _ _).1, ?_⟩
    rw [(format_error_congr "!TIME!" ((setErrno o.timeErrno t).errno) o
          (setErrno o.timeErrno s) (setErrno o.timeErrno t)).2.1,
        (format_error_congr "!TIME!" ((setErrno o.timeErrno t).errno) o
          (setErrno o.timeErrno s) (setErrno o.timeErrno t)).2.2]
    exact hee

theorem format_error_view_eq (d : String) (e : Int) (o : Oracle) (s t : St) :
    (format_error d e o s).1.view = (format_error d e o t).1.view :=
  (format_error_congr d e o s t).1

theorem format_error_errno (d : String) (e : Int) (o : Oracle) (s : St) :
    (format_error d e o s).2.errno = s.errno :=
  (format_error_congr d e o s s).2.1

theorem ghost_congr (toDot : Bool) (o : Oracle) (s t : St) (he : s.errno = t.errno) :
    (get_hostname toDot o s).1.view = (get_hostname toDot o t).1.view ∧
    (get_hostname toDot o s).2.errno = (get_hostname toDot o t).2.errno := by
  by_cases h1 : o.hostSysconfOk
  · by_cases hm : o.hostMallocOk
    · by_cases hh : o.hostnameOk
      · simp [get_hostname, h1, hm, hh, mallocS, PromptString.view, CStr.text, he]
      · rw [Bool.not_eq_true] at hh
        simp only [get_hostname, h1, Bool.not_true, Bool.false_eq_true, if_false,
          mallocS, hm, if_true, hh, Bool.not_false, setErrno, freeS]
        rw [he]
        refine ⟨format_error_view_eq _ _ o _ _, ?_⟩
        rw [format_error_errno, format_error_errno]
    · simp [get_hostname, h1, hm, mallocS, PromptString.view, CStr.text, he]
  · rw [Bool.not_eq_true] at h1
    simp only [get_hostname, h1, Bool.not_false, if_true, setErrno]
    rw [he]
    by_cases hct : o.hostSysconfErrno.getD t.errno = t.errno
    · simp [hct, PromptString.view, CStr.text]
    · rw [if_neg hct, if_neg hct]
      refine ⟨format_error_view_eq _ _ o _ _, ?_⟩
      rw [format_error_errno, format_error_errno]

theorem gtty_congr (o : Oracle) (s t : St) (he : s.errno = t.errno) :
    (get_tty_basename o s).1.view = (get_tty_basename o t).1.view ∧
    (get_tty_basename o s).2.errno = (get_tty_basename o t).2.errno := by
  by_cases h1 : o.isattyOk
  · by_cases h2 : o.ttynameOk
    · by_cases hm : o.ttyMallocOk
      · by_cases hb : o.ttyBasenameOk
        · simp [get_tty_basename, h1, h2, hm, hb, mallocS, PromptString.view,
            CStr.text, he]
        · rw [Bool.not_eq_true] at hb
          simp only [get_tty_basename, h1, h2, Bool.not_true, Bool.false_eq_true,
            if_false, mallocS, hm, if_true, hb, Bool.not_false, setErrno, freeS]
          rw [he]
          refine ⟨format_error_view_eq _ _ o _ _, ?_⟩
          rw [format_error_errno, format_error_errno]
      · simp [get_tty_basename, h1, h2, hm, mallocS, PromptString.view, CStr.text, he]
    · rw [Bool.not_eq_true] at h2
      simp only [get_tty_basename, h1, h2, Bool.not_true, Bool.false_eq_true, if_false,
        Bool.not_false, if_true, setErrno]
      rw [he]
      refine ⟨format_error_view_eq _ _ o _ _, ?_⟩
      rw [format_error_errno, format_error_errno]
  · rw [Bool.not_eq_true] at h1
    simp only [get_tty_basename, h1, Bool.not_false, if_true, setErrno]
    rw [he]
    refine ⟨format_error_view_eq _ _ o _ _, ?_⟩
    rw [format_error_errno, format_error_errno]

theorem gparent_congr (o : Oracle) (s t : St) (he : s.errno = t.errno) :
    (get_parent_name o s).1.view = (get_parent_name o t).1.view ∧
    (get_parent_name o s).2.errno = (get_parent_name o t).2.errno := by
  by_cases hm : o.parentMallocOk
  · by_cases ha : o.apple
    · by_cases hp : o.procOk
      · simp [get_parent_name, hm, ha, hp, mallocS, PromptString.view, CStr.text, he]
      · rw [Bool.not_eq_true] at hp
        simp only [get_parent_name, mallocS, hm, if_true, ha, hp, Bool.false_eq_true,
          if_false, setErrno, freeS]
        rw [he]
        refine ⟨format_error_view_eq _ _ o _ _, ?_⟩
        rw [format_error_errno, format_error_errno]
    · simp [get_parent_name, hm, ha, mallocS, freeS, PromptString.view, he]
  · simp [get_parent_name, hm, mallocS, PromptString.view, CStr.text, he]

set_option maxRecDepth 4000 in
theorem guser_congr (o : Oracle) (s t : St) (he : s.errno = t.errno) :
    (get_username o s).1.view = (get_username o t).1.view ∧
    (get_username o s).2.errno = (get_username o t).2.errno := by
  by_cases h1 : o.pwSysconfOk
  · by_cases hm : o.userMallocOk
    · by_cases hg : o.getpwStatus = 0
      · by_cases hf : o.getpwFound
        · by_cases hn : o.userStrndupOk
          · simp [get_username, h1, hg, hf, hm, hn, mallocS, freeS, setErrno,
              PromptString.view, CStr.text, he]
          · simp [get_username, h1, hg, hf, hm, hn, mallocS, freeS, setErrno,
              PromptString.view, he]
        · simp [get_username, h1, hg, hf, hm, mallocS, freeS, setErrno,
            PromptString.view, he]
      · simp only [get_username, h1, Bool.not_true, Bool.false_eq_true, if_false,
          mallocS, hm, if_true, hg, ne_eq, not_false_eq_true, if_true, setErrno, freeS]
        rw [he]
        refine ⟨format_error_view_eq _ _ o _ _, ?_⟩
        rw [format_error_errno, format_error_errno]
    · simp [get_username, h1, hm, mallocS, PromptString.view, he]
  · rw [Bool.not_eq_true] at h1
    simp only [get_username, h1, Bool.not_false, if_true, setErrno]
    rw [he]
    by_cases hct : t.errno = o.pwSysconfErrno.getD t.errno
    · rw [if_pos hct, if_pos hct]
      simp [PromptString.view, CStr.text]
    · rw [if_neg hct, if_neg hct]
      refine ⟨format_error_view_eq _ _ o _ _, ?_⟩
      rw [format_error_errno, format_error_errno]

/-- The error helper's ownership flag depends only on the platform
capabilities, not on the machine state. -/
theorem format_error_flag (d : String) (e : Int) (o : Oracle) (s : St) :
    (format_error d e o s).1.needs_free = (o.hasStrerror && o.feMallocOk) := by
  by_cases h1 : o.hasStrerror <;> by_cases h2 : o.feMallocOk <;>
    simp [format_error, mallocS, h1, h2]

/-- The error helper's text depends only on the oracle. -/
theorem format_error_text (d : String) (e : Int) (o : Oracle) (s : St) :
    (format_error d e o s).1.str.text =
      (if o.hasStrerror && o.feMallocOk then
        strlcatM (strlcatM (strlcpyM "!" (2 + min (o.errName e).length 20))
          (o.errName e) (2 + min (o.errName e).length 20)) "!"
          (2 + min (o.errName e).length 20)
      else d) := by
  by_cases h1 : o.hasStrerror <;> by_cases h2 : o.feMallocOk <;>
    simp [format_error, mallocS, h1, h2, CStr.text]

theorem format_error_text_eq (d : String) (e : Int) (o : Oracle) (s t : St) :
    (format_error d e o s).1.str.text = (format_error d e o t).1.str.text :=
  congrArg Prod.fst (format_error_view_eq d e o s t)

theorem format_error_flag_eq (d : String) (e : Int) (o : Oracle) (s t : St) :
    (format_error d e o s).1.needs_free = (format_error d e o t).1.needs_free :=
  congrArg Prod.snd (format_error_view_eq d e o s t)

theorem ghome_congr (o : Oracle) (s t : St) (he : s.errno = t.errno) :
    (get_home_dir o s).1.1.text = (get_home_dir o t).1.1.text ∧
    (get_home_dir o s).1.2 = (get_home_dir o t).1.2 ∧
    (get_home_dir o s).2.errno = (get_home_dir o t).2.errno := by
  cases hhe : o.homeEnv with
  | some h => simp [get_home_dir, hhe, he]
  | none =>
    by_cases h1 : o.hdSysconfOk
    · by_cases hm : o.hdMallocOk
      · by_cases hg : o.hdGetpwStatus = 0
        · by_cases hf : o.hdGetpwFound
          · by_cases hn : o.hdStrndupOk
            · simp [get_home_dir, hhe, h1, hm, hg, hf, hn, mallocS, setErrno,
                CStr.text, he]
            · simp [get_home_dir, hhe, h1, hm, hg, hf, hn, mallocS, setErrno,
                CStr.text, he]
          · simp [get_home_dir, hhe, h1, hm, hg, hf, mallocS, setErrno, CStr.text, he]
        · simp only [get_home_dir, hhe, h1, Bool.not_true, Bool.false_eq_true, if_false,
            mallocS, hm, if_true, hg, ne_eq, not_false_eq_true, if_true, setErrno]
          simp only [he]
          refine ⟨?_, ?_, ?_⟩
          · simp only [format_error_text]
          · simp only [format_error_flag]
          · simp only [format_error_errno]
      · simp [get_home_dir, hhe, h1, hm, mallocS, he]
    · rw [Bool.not_eq_true] at h1
      simp only [get_home_dir, hhe, h1, Bool.not_false, if_true, setErrno]
      simp only [he]
      by_cases hct : t.errno = o.hdSysconfErrno.getD t.errno
      · rw [if_pos hct, if_pos hct]
        simp
      · rw [if_neg hct, if_neg hct]
        refine ⟨?_, ?_, ?_⟩
        · simp only [format_error_text]
        · simp only [format_error_flag]
        · simp only [format_error_errno]

theorem pwd_leaf_congr (o : Oracle) (base : Bool) (pwd1 : String) (s2 t2 : St)
    (he2 : s2.errno = t2.errno) :
    viewRel
      (match mallocS o.pwdMallocOk s2 with
        | (none, s3) => some (⟨.null, false⟩, s3)
        | (some id, s3) =>
            if base && !o.pwdBasenameOk then
              let s4 := setErrno o.pwdBasenameErrno (freeS id s3)
              some (format_error "!BASENAMER!" s4.errno o s4)
            else some (⟨.heap id (strlcpyM pwd1 PATH_MAX), true⟩, s3))
      (match mallocS o.pwdMallocOk t2 with
        | (none, s3) => some (⟨.null, false⟩, s3)
        | (some id, s3) =>
            if base && !o.pwdBasenameOk then
              let s4 := setErrno o.pwdBasenameErrno (freeS id s3)
              some (format_error "!BASENAMER!" s4.errno o s4)
            else some (⟨.heap id (strlcpyM pwd1 PATH_MAX), true⟩, s3)) := by
  by_cases hm : o.pwdMallocOk
  · by_cases hbb : (base && !o.pwdBasenameOk) = true
    · simp only [mallocS, hm, if_true, hbb, setErrno, freeS]
      rw [he2]
      exact ⟨format_error_view_eq _ _ o _ _,
        by rw [format_error_errno, format_error_errno]⟩
    · rw [Bool.not_eq_true] at hbb
      simp [mallocS, hm, hbb, viewRel, PromptString.view, CStr.text, he2]
  · simp [mallocS, hm, viewRel, PromptString.view, CStr.text, he2]

theorem gpwd_congr (base : Bool) (o : Oracle) (s t : St) (he : s.errno = t.errno) :
    viewRel (get_pwd_tilde base o s) (get_pwd_tilde base o t) := by
  obtain ⟨htext, hstat, herr⟩ := ghome_congr o s t he
  by_cases hc : o.getcwdOk
  · simp only [get_pwd_tilde, hc, Bool.not_true, Bool.false_eq_true, if_false]
    by_cases hst : (get_home_dir o s).1.2 < 0
    · have hst_t : (get_home_dir o t).1.2 < 0 := hstat ▸ hst
      rw [if_pos hst, if_pos hst_t]
      refine ⟨?_, herr⟩
      simp [PromptString.view, htext, hstat]
    · have hst_t : ¬(get_home_dir o t).1.2 < 0 := hstat ▸ hst
      rw [if_neg hst, if_neg hst_t]
      simp only [htext, hstat]
      have h_errno :
          (if (get_home_dir o t).1.2 = 1 then
            match (get_home_dir o s).1.1 with
            | .heap hid _ => freeS hid (get_home_dir o s).2
            | .static _ => (get_home_dir o s).2
            | .null => (get_home_dir o s).2
          else (get_home_dir o s).2).errno =
          (if (get_home_dir o t).1.2 = 1 then
            match (get_home_dir o t).1.1 with
            | .heap hid _ => freeS hid (get_home_dir o t).2
            | .static _ => (get_home_dir o t).2
            | .null => (get_home_dir o t).2
          else (get_home_dir o t).2).errno := by
        by_cases hst1 : (get_home_dir o t).1.2 = 1
        · rw [if_pos hst1, if_pos hst1]
          cases (get_home_dir o s).1.1 <;> cases (get_home_dir o t).1.1 <;>
            simp [freeS, herr]
        · rw [if_neg hst1, if_neg hst1]
          exact herr
      by_cases hfind : findSub o.cwd (get_home_dir o t).1.1.text = some 0
      · by_cases hmin : min (get_home_dir o t).1.1.text.length PATH_MAX = 0
        · rw [if_pos hfind, if_pos hmin]
          exact trivial
        · rw [if_pos hfind, if_neg hmin]
          dsimp only
          exact pwd_leaf_congr o base _ _ _ h_errno
      · rw [if_neg hfind]
        dsimp only
        exact pwd_leaf_congr o base _ _ _ h_errno
  · rw [Bool.not_eq_true] at hc
    simp only [get_pwd_tilde, hc, Bool.not_false, if_true, setErrno]
    rw [he]
    exact ⟨format_error_view_eq _ _ o _ _,
      by rw [format_error_errno, format_error_errno]⟩

theorem resolveElem_congr (e : PromptElement) (o : Oracle) (s t : St)
    (he : s.errno = t.errno) : viewRel (resolveElem e o s) (resolveElem e o t) := by
  cases e <;> simp only [resolveElem] <;>
    first
      | exact gpwd_congr false o s t he
      | exact gpwd_congr true o s t he
      | exact ⟨rfl, he⟩
      | exact ⟨(gft_congr _ o s t he).1, (gft_congr _ o s t he).2⟩
      | exact ⟨(ghost_congr _ o s t he).1, (ghost_congr _ o s t he).2⟩
      | exact ⟨(gtty_congr o s t he).1, (gtty_congr o s t he).2⟩
      | exact ⟨(gparent_congr o s t he).1, (gparent_congr o s t he).2⟩
      | exact ⟨(guser_congr o s t he).1, (guser_congr o s t he).2⟩

/-- List-level observational relation between two resolution runs. -/
def listViewRel : Option (List PromptString × St) → Option (List PromptString × St) →
    Prop
  | none, none => True
  | some r1, some r2 => r1.1.map PromptString.view = r2.1.map PromptString.view ∧
      r1.2.errno = r2.2.errno
  | _, _ => False

theorem resolveAll_viewRel (cat : List PromptElement) (os : Nat → Oracle) :
    ∀ (i : Nat) (s t : St), s.errno = t.errno →
      listViewRel (resolveAll cat os i s) (resolveAll cat os i t) := by
  induction cat with
  | nil =>
      intro i s t he
      simp [resolveAll, listViewRel, he]
  | cons e rest ih =>
      intro i s t he
      have hrel := resolveElem_congr e (os i) s t he
      simp only [resolveAll]
      cases hs : resolveElem e (os i) s with
      | none =>
          cases ht : resolveElem e (os i) t with
          | none => exact trivial
          | some pr =>
              rw [hs, ht] at hrel
              exact hrel.elim
      | some pr =>
          cases ht : resolveElem e (os i) t with
          | none =>
              rw [hs, ht] at hrel
              exact hrel.elim
          | some pr2 =>
              rw [hs, ht] at hrel
              obtain ⟨ps, s1⟩ := pr
              obtain ⟨qs, t1⟩ := pr2
              obtain ⟨hview, herr⟩ := hrel
              have hrest := ih (i + 1) s1 t1 herr
              dsimp only
              cases hrs : resolveAll rest os (i + 1) s1 with
              | none =>
                  cases hrt : resolveAll rest os (i + 1) t1 with
                  | none => exact trivial
                  | some pr3 =>
                      rw [hrs, hrt] at hrest
                      exact hrest.elim
              | some pr3 =>
                  cases hrt : resolveAll rest os (i + 1) t1 with
                  | none =>
                      rw [hrs, hrt] at hrest
                      exact hrest.elim
                  | some pr4 =>
                      rw [hrs, hrt] at hrest
                      obtain ⟨l1, s2⟩ := pr3
                      obtain ⟨l2, t2⟩ := pr4
                      obtain ⟨hl, he2⟩ := hrest
                      exact ⟨by simp [hview, hl], he2⟩

theorem resolveAll_congr_os (cat : List PromptElement) (os os1 : Nat → Oracle) :
    ∀ (i : Nat) (s : St), (∀ j, i ≤ j → j < i + cat.length → os j = os1 j) →
      resolveAll cat os i s = resolveAll cat os1 i s := by
  induction cat with
  | nil => intro i s _; rfl
  | cons e rest ih =>
      intro i s hos
      simp only [resolveAll]
      rw [hos i (Nat.le_refl _) (by simp)]
      cases resolveElem e (os1 i) s with
      | none => rfl
      | some pr =>
          obtain ⟨ps, s1⟩ := pr
          dsimp only
          rw [ih (i + 1) s1 (fun j h1 h2 => hos j (by omega)
            (by simp only [List.length_cons] at h2 ⊢; omega))]

theorem resolveAll_append (l1 l2 : List PromptElement) (os : Nat → Oracle) :
    ∀ (i : Nat) (s : St),
      resolveAll (l1 ++ l2) os i s =
        (match resolveAll l1 os i s with
         | none => none
         | some (f1, s1) =>
             match resolveAll l2 os (i + l1.length) s1 with
             | none => none
             | some (f2, s2) => some (f1 ++ f2, s2)) := by
  induction l1 with
  | nil =>
      intro i s
      simp only [List.nil_append, resolveAll, List.length_nil, Nat.add_zero]
      cases h : resolveAll l2 os i s with
      | none => rfl
      | some pr =>
          obtain ⟨f2, s2⟩ := pr
          simp
  | cons e rest ih =>
      intro i s
      simp only [List.cons_append, resolveAll, List.length_cons]
      cases hre : resolveElem e (os i) s with
      | none => rfl
      | some pr =>
          obtain ⟨ps, s1⟩ := pr
          dsimp only
          simp only [List.append_eq]
          rw [ih (i + 1) s1]
          have hidx : i + 1 + rest.length = i + (rest.length + 1) := by omega
          rw [hidx]
          cases h1 : resolveAll rest os (i + 1) s1 with
          | none => rfl
          | some pr2 =>
              obtain ⟨f1, s2⟩ := pr2
              dsimp only
              cases h2 : resolveAll l2 os (i + (rest.length + 1)) s2 with
              | none => rfl
              | some pr3 =>
                  obtain ⟨f2, s3⟩ := pr3
                  simp

/-- Oracle for a hostname resolution whose `sysconf` fails setting errno 5. -/
def oHostFail : Oracle :=
  { oAllOk with hostSysconfOk := false, hostSysconfErrno := some 5 }

/-- Oracle for a tty resolution whose `isatty` fails setting errno 5. -/
def oTtyFail : Oracle :=
  { oAllOk with isattyOk := false, isattyErrno := some 5 }

/-- Oracle family: element 0 resolves with every call succeeding. -/
def c9osA : Nat → Oracle := fun j => if j = 0 then oAllOk else oHostFail

/-- Oracle family identical to `c9osA` except at element 0, whose `isatty`
now fails. -/
def c9osB : Nat → Oracle := fun j => if j = 0 then oTtyFail else oHostFail

/-- C9 (counterexample): element resolution is not independent of other
elements' outcomes: with catalog `[TtyBasename, HostnameUpToDot]` and the
two oracle families agreeing on element 1, failing element 0's `isatty`
query (which sets errno 5) changes element 1's fragment from the
`!SYSCONF!` diagnostic to `!NOHOSTNAMEMAX!` — `get_hostname`'s
sysconf-failure heuristic compares errno against whatever value the
previous element's resolution left in it. -/
theorem c9_counterexample :
    (∀ j : Nat, j ≠ 0 → c9osA j = c9osB j) ∧
    resolveAll [.ttyBasename, .hostnameUpToDot] c9osA 0 st0 =
      some ([⟨.heap 0 "3", true⟩, ⟨.static "!SYSCONF!", false⟩], ⟨5, 1, [0], []⟩) ∧
    resolveAll [.ttyBasename, .hostnameUpToDot] c9osB 0 st0 =
      some ([⟨.static "!ISATTY!", false⟩, ⟨.static "!NOHOSTNAMEMAX!", false⟩],
            ⟨5, 0, [], []⟩) ∧
    (⟨.static "!SYSCONF!", false⟩ : PromptString).view ≠
      (⟨.static "!NOHOSTNAMEMAX!", false⟩ : PromptString).view := by
  refine ⟨?_, by decide, by decide, by decide⟩
  intro j hj
  simp [c9osA, c9osB, hj]

/-- C9 (amended): resolution is element-independent except through the
process-wide errno cell: with two oracle families agreeing everywhere but
at the element between `pre` and `post`, both runs resolve the prefix to
the same fragments and state, both produce full catalog-length sequences,
and — whenever the errno left behind by the differing element is the same
in both runs — every later element's fragment (text and ownership flag) is
identical as well.  The counterexample shows the errno proviso cannot be
dropped. -/
theorem c9_independence_amended (pre post : List PromptElement) (e : PromptElement)
    (os os1 : Nat → Oracle) (s : St)
    (hos : ∀ j, j ≠ pre.length → os j = os1 j)
    (fpre : List PromptString) (spre : St)
    (hpre : resolveAll pre os 0 s = some (fpre, spre))
    (psA : PromptString) (sA : St)
    (hA : resolveElem e (os pre.length) spre = some (psA, sA))
    (psB : PromptString) (sB : St)
    (hB : resolveElem e (os1 pre.length) spre = some (psB, sB))
    (restA : List PromptString) (sA1 : St)
    (hrA : resolveAll post os (pre.length + 1) sA = some (restA, sA1))
    (restB : List PromptString) (sB1 : St)
    (hrB : resolveAll post os1 (pre.length + 1) sB = some (restB, sB1)) :
    make_exploded_prompt (pre ++ e :: post) os true s =
      some (fpre ++ psA :: restA, sA1) ∧
    make_exploded_prompt (pre ++ e :: post) os1 true s =
      some (fpre ++ psB :: restB, sB1) ∧
    (fpre ++ psA :: restA).length = (pre ++ e :: post).length ∧
    (fpre ++ psB :: restB).length = (pre ++ e :: post).length ∧
    (sA.errno = sB.errno →
      restA.map PromptString.view = restB.map PromptString.view) := by
  have hpre1 : resolveAll pre os1 0 s = some (fpre, spre) := by
    rw [← resolveAll_congr_os pre os os1 0 s
      (fun j h1 h2 => hos j (by simp only [Nat.zero_add] at h2; omega))]
    exact hpre
  have hrB1 : resolveAll post os (pre.length + 1) sB = some (restB, sB1) := by
    rw [resolveAll_congr_os post os os1 (pre.length + 1) sB
      (fun j h1 h2 => hos j (by omega))]
    exact hrB
  have hmidA : resolveAll (e :: post) os pre.length spre = some (psA :: restA, sA1) := by
    simp only [resolveAll]
    rw [hA]
    dsimp only
    rw [hrA]
  have hmidB : resolveAll (e :: post) os1 pre.length spre =
      some (psB :: restB, sB1) := by
    simp only [resolveAll]
    rw [hB]
    dsimp only
    rw [hrB]
  have hfpre_len := resolveAll_length pre os 0 s fpre spre hpre
  have hrestA_len := resolveAll_length post os (pre.length + 1) sA restA sA1 hrA
  have hrestB_len := resolveAll_length post os1 (pre.length + 1) sB restB sB1 hrB
  refine ⟨?_, ?_, ?_, ?_, ?_⟩
  · rw [make_exploded_prompt, if_pos rfl, resolveAll_append pre (e :: post) os 0 s,
      hpre]
    dsimp only
    simp only [Nat.zero_add]
    rw [hmidA]
  · rw [make_exploded_prompt, if_pos rfl, resolveAll_append pre (e :: post) os1 0 s,
      hpre1]
    dsimp only
    simp only [Nat.zero_add]
    rw [hmidB]
  · simp only [List.length_append, List.length_cons]
    omega
  · simp only [List.length_append, List.length_cons]
    omega
  · intro herr
    have hrel := resolveAll_viewRel post os (pre.length + 1) sA sB herr
    rw [hrA, hrB1] at hrel
    exact hrel.1

/-- Oracle family differing from all-success only at element 1, whose
`strndup` fails. -/
def c9osW : Nat → Oracle :=
  fun j => if j = 1 then { oAllOk with userStrndupOk := false } else oAllOk

theorem c9_independence_amended_witness :
    make_exploded_prompt [.space, .username, .space] (fun _ => oAllOk) true st0 =
      some ([⟨.static " ", false⟩, ⟨.heap 1 "bob", true⟩, ⟨.static " ", false⟩],
            ⟨0, 2, [1], [0]⟩) ∧
    make_exploded_prompt [.space, .username, .space] c9osW true st0 =
      some ([⟨.static " ", false⟩, ⟨.static "!STRNDUP!", false⟩, ⟨.static " ", false⟩],
            ⟨0, 1, [], [0]⟩) ∧
    ([⟨.static " ", false⟩, ⟨.heap 1 "bob", true⟩,
      ⟨.static " ", false⟩] : List PromptString).length =
      ([.space, .username, .space] : List PromptElement).length ∧
    ([⟨.static " ", false⟩, ⟨.static "!STRNDUP!", false⟩,
      ⟨.static " ", false⟩] : List PromptString).length =
      ([.space, .username, .space] : List PromptElement).length ∧
    ((⟨0, 2, [1], [0]⟩ : St).errno = (⟨0, 1, [], [0]⟩ : St).errno →
      ([⟨.static " ", false⟩] : List PromptString).map PromptString.view =
        ([⟨.static " ", false⟩] : List PromptString).map PromptString.view) :=
  c9_independence_amended [.space] [.space] .username (fun _ => oAllOk) c9osW st0
    (by
      intro j hj
      simp only [List.length_singleton] at hj
      simp [c9osW, hj])
    [⟨.static " ", false⟩] st0 (by decide)
    ⟨.heap 1 "bob", true⟩ ⟨0, 2, [1], [0]⟩ (by decide)
    ⟨.static "!STRNDUP!", false⟩ ⟨0, 1, [], [0]⟩ (by decide)
    [⟨.static " ", false⟩] ⟨0, 2, [1], [0]⟩ (by decide)
    [⟨.static " ", false⟩] ⟨0, 1, [], [0]⟩ (by decide)

end Cprompt

